import Mathlib

/-!
Verification of the mvp-doc-ai document-processing pipeline.

This file gives a shallow embedding, in Lean 4, of the core decision
pipeline of the repository: the confidence calculator
(ConfidenceCalculator.ts), the numeric type coercion
(TypeCoercionService.coerceToNumber), the field validators
(ValidationService.ts), the classification state machine
(ClassificationService.classify), the bounded tool-call loop
(OllamaClient.chatWithTools together with ToolRegistry), and the
extraction orchestrator (ExtractionService.extract / findFieldLocation).

Modelling conventions:
* JavaScript numbers are modelled as exact rationals (ℚ).  All numeric
  constants of the source are short decimal fractions, so this is exact.
* JavaScript strings are modelled as Lean `String` / `List Char`; the
  character classes of the regexes used by the source (`\s`, `\d`,
  `[^a-z0-9\s]`, ...) are modelled over their ASCII fragment (plus
  NBSP for `\s`), which covers every string the claims mention.
* Effectful code (LLM calls, the database-backed example store) is
  modelled by passing the outcome of each external call as an explicit
  argument, so the deterministic control flow of the source becomes a
  pure function of those outcomes.
* Thrown JavaScript exceptions are modelled with `Except String`.
-/

set_option maxHeartbeats 1000000

/-! ## Basic JavaScript string primitives -/

/-- Fragment of the JavaScript `\s` character class (ASCII whitespace
plus NBSP), as used by `String.prototype.trim` and the `/[\s-]/g`,
`/[$€£¥\s]/g` regexes of the source. -/
def isJsSpaceB (c : Char) : Bool :=
  c = ' ' || c = '\t' || c = '\n' || c = '\r' ||
  c.toNat = 11 || c.toNat = 12 || c.toNat = 160

/-- JavaScript `String.prototype.trim` on a character list. -/
def jsTrimL (l : List Char) : List Char :=
  ((l.dropWhile isJsSpaceB).reverse.dropWhile isJsSpaceB).reverse

/-- ASCII fragment of `String.prototype.toLowerCase` (the source only
lower-cases ASCII identifiers and document-type names). -/
def toLowerChar (c : Char) : Char :=
  if 65 ≤ c.toNat && c.toNat ≤ 90 then Char.ofNat (c.toNat + 32) else c

/-- Lower-case every character of a string (ASCII fragment). -/
def jsToLower (s : String) : String := String.mk (s.data.map toLowerChar)

/-- Boolean substring containment: JavaScript `hay.includes(needle)`. -/
def isSubstrOf (needle hay : List Char) : Bool :=
  hay.tails.any (fun t => needle.isPrefixOf t)

/-- JavaScript `hay.includes(needle)` on strings. -/
def jsIncludes (hay needle : String) : Bool := isSubstrOf needle.data hay.data

/-! ## ConfidenceCalculator (ConfidenceCalculator.ts) -/

/-- The `clampConfidence` helper: clamp a rational to `[0, 1]`
(`Math.max(CONFIDENCE_MIN, Math.min(CONFIDENCE_MAX, value))`). -/
def clampConfidence (v : ℚ) : ℚ := max 0 (min 1 v)

/-- The `ConfidenceBreakdown` record of the source (reasons handled
separately, as in `calculateFinalConfidence` which does not set them). -/
structure ConfidenceBreakdown where
  llm_confidence : ℚ
  validation_confidence : ℚ
  clarity_confidence : ℚ
  final_confidence : ℚ
deriving Repr, DecidableEq

/-- `ConfidenceCalculator.calculateFinalConfidence`: multiply the three
sub-scores and clamp the product to `[0, 1]`. -/
def calculateFinalConfidence (llm validation clarity : ℚ) : ConfidenceBreakdown :=
  { llm_confidence := llm
    validation_confidence := validation
    clarity_confidence := clarity
    final_confidence := clampConfidence (llm * validation * clarity) }

/-- JavaScript `Math.round` on a rational: round half toward +∞. -/
def jsRound (q : ℚ) : ℤ := Int.floor (q + 1/2)

/-- The model-uncertainty reason string, including the rounded
percentage interpolated by the source. -/
def llmReasonStr (llm : ℚ) : String :=
  "Model uncertainty: The AI model was not confident in its prediction (" ++
    toString (jsRound (llm * 100)) ++ "%)"

/-- Reason string for a critically failed validation. -/
def validationFailedStr : String :=
  "Validation failed: Extracted data does not match expected format or contains errors"

/-- Reason string for a partially failed validation. -/
def partialValidationStr : String :=
  "Partial validation: Some extracted fields have format issues"

/-- Reason string for poor document clarity. -/
def poorQualityStr : String :=
  "Poor document quality: Document may be unclear, missing expected text, or heavily degraded"

/-- Reason string for missing identifying keywords. -/
def missingKeywordsStr : String :=
  "Missing keywords: Document does not contain all expected identifying information"

/-- Generic fallback reason string. -/
def combinedFactorsStr : String :=
  "Combined factors: Multiple confidence components are slightly below optimal levels"

/-- `ConfidenceCalculator.generateLowConfidenceReasons`: empty above the
threshold; otherwise each sub-score is checked independently against its
fixed cut point and a generic reason is used when none tripped. -/
def generateLowConfidenceReasons (b : ConfidenceBreakdown) (threshold : ℚ) : List String :=
  if b.final_confidence ≥ threshold then []
  else
    let rs :=
      (if b.llm_confidence < 0.7 then [llmReasonStr b.llm_confidence] else []) ++
      (if b.validation_confidence < 1.0 then
        [if b.validation_confidence ≤ 0.3 then validationFailedStr else partialValidationStr]
       else []) ++
      (if b.clarity_confidence < 0.7 then
        [if b.clarity_confidence ≤ 0.4 then poorQualityStr else missingKeywordsStr]
       else [])
    if rs = [] then [combinedFactorsStr] else rs

/-! Distinctness facts about the reason strings (needed because the
model-uncertainty reason contains an interpolated percentage). -/

theorem llmReasonStr_take2 (x : ℚ) : (llmReasonStr x).data.take 2 = ['M', 'o'] := rfl

theorem llmReasonStr_ne_validationFailed (x : ℚ) : llmReasonStr x ≠ validationFailedStr := by
  intro h
  have h2 : (llmReasonStr x).data.take 2 = validationFailedStr.data.take 2 := by rw [h]
  rw [llmReasonStr_take2] at h2
  exact absurd h2 (by decide)

theorem llmReasonStr_ne_partialValidation (x : ℚ) : llmReasonStr x ≠ partialValidationStr := by
  intro h
  have h2 : (llmReasonStr x).data.take 2 = partialValidationStr.data.take 2 := by rw [h]
  rw [llmReasonStr_take2] at h2
  exact absurd h2 (by decide)

theorem llmReasonStr_ne_poorQuality (x : ℚ) : llmReasonStr x ≠ poorQualityStr := by
  intro h
  have h2 : (llmReasonStr x).data.take 2 = poorQualityStr.data.take 2 := by rw [h]
  rw [llmReasonStr_take2] at h2
  exact absurd h2 (by decide)

theorem llmReasonStr_ne_missingKeywords (x : ℚ) : llmReasonStr x ≠ missingKeywordsStr := by
  intro h
  have h2 : (llmReasonStr x).data.take 2 = missingKeywordsStr.data.take 2 := by rw [h]
  rw [llmReasonStr_take2] at h2
  exact absurd h2 (by decide)

theorem llmReasonStr_ne_combinedFactors (x : ℚ) : llmReasonStr x ≠ combinedFactorsStr := by
  intro h
  have h2 : (llmReasonStr x).data.take 2 = combinedFactorsStr.data.take 2 := by rw [h]
  rw [llmReasonStr_take2] at h2
  exact absurd h2 (by decide)

/-- C1: for sub-scores in `[0,1]` the final confidence computed by
`calculateFinalConfidence` is the clamped product of the three
sub-scores and lies in `[0,1]`. -/
theorem c1_final_confidence_clamped_product (llm validation clarity : ℚ)
    (h1 : 0 ≤ llm) (h2 : llm ≤ 1) (h3 : 0 ≤ validation) (h4 : validation ≤ 1)
    (h5 : 0 ≤ clarity) (h6 : clarity ≤ 1) :
    (calculateFinalConfidence llm validation clarity).final_confidence =
      clampConfidence (llm * validation * clarity) ∧
    0 ≤ (calculateFinalConfidence llm validation clarity).final_confidence ∧
    (calculateFinalConfidence llm validation clarity).final_confidence ≤ 1 := by
  refine ⟨rfl, ?_, ?_⟩
  · exact le_max_left 0 _
  · exact max_le (by norm_num) (min_le_left 1 _)

/-- Closed-form instance of C1 at concrete sub-scores. -/
theorem c1_final_confidence_clamped_product_witness :
    (calculateFinalConfidence (1/2) (3/4) 1).final_confidence =
      clampConfidence ((1/2) * (3/4) * 1) ∧
    0 ≤ (calculateFinalConfidence (1/2) (3/4) 1).final_confidence ∧
    (calculateFinalConfidence (1/2) (3/4) 1).final_confidence ≤ 1 :=
  c1_final_confidence_clamped_product (1/2) (3/4) 1
    (by norm_num) (by norm_num) (by norm_num) (by norm_num) (by norm_num) (by norm_num)

/-- C2: `generateLowConfidenceReasons` returns the empty list exactly
when the final confidence reaches the threshold; below the threshold
each sub-score is checked independently against its fixed cut point
(llm below 0.7; validation below 1.0 with a critical branch at 0.3 or
less; clarity below 0.7 with a poor branch at 0.4 or less), and the
generic combined-factors reason appears exactly when none of them
tripped (so the list is never empty below the threshold). -/
theorem c2_low_confidence_reasons_spec (b : ConfidenceBreakdown) (t : ℚ) :
    (generateLowConfidenceReasons b t = [] ↔ t ≤ b.final_confidence) ∧
    (llmReasonStr b.llm_confidence ∈ generateLowConfidenceReasons b t ↔
      (b.final_confidence < t ∧ b.llm_confidence < 0.7)) ∧
    (validationFailedStr ∈ generateLowConfidenceReasons b t ↔
      (b.final_confidence < t ∧ b.validation_confidence < 1.0 ∧
        b.validation_confidence ≤ 0.3)) ∧
    (partialValidationStr ∈ generateLowConfidenceReasons b t ↔
      (b.final_confidence < t ∧ b.validation_confidence < 1.0 ∧
        ¬ b.validation_confidence ≤ 0.3)) ∧
    (poorQualityStr ∈ generateLowConfidenceReasons b t ↔
      (b.final_confidence < t ∧ b.clarity_confidence < 0.7 ∧
        b.clarity_confidence ≤ 0.4)) ∧
    (missingKeywordsStr ∈ generateLowConfidenceReasons b t ↔
      (b.final_confidence < t ∧ b.clarity_confidence < 0.7 ∧
        ¬ b.clarity_confidence ≤ 0.4)) ∧
    (combinedFactorsStr ∈ generateLowConfidenceReasons b t ↔
      (b.final_confidence < t ∧ 0.7 ≤ b.llm_confidence ∧
        1.0 ≤ b.validation_confidence ∧ 0.7 ≤ b.clarity_confidence)) := by
  rcases le_or_lt t b.final_confidence with hf | hf
  · simp [generateLowConfidenceReasons, hf, not_lt.mpr hf]
  · have hf2 : ¬ (b.final_confidence ≥ t) := not_le.mpr hf
    simp only [generateLowConfidenceReasons, if_neg hf2]
    split_ifs <;>
      simp_all [hf,
                llmReasonStr_ne_validationFailed, llmReasonStr_ne_partialValidation,
                llmReasonStr_ne_poorQuality, llmReasonStr_ne_missingKeywords,
                llmReasonStr_ne_combinedFactors,
                (llmReasonStr_ne_validationFailed b.llm_confidence).symm,
                (llmReasonStr_ne_partialValidation b.llm_confidence).symm,
                (llmReasonStr_ne_poorQuality b.llm_confidence).symm,
                (llmReasonStr_ne_missingKeywords b.llm_confidence).symm,
                (llmReasonStr_ne_combinedFactors b.llm_confidence).symm,
                show validationFailedStr ≠ partialValidationStr by decide,
                show validationFailedStr ≠ poorQualityStr by decide,
                show validationFailedStr ≠ missingKeywordsStr by decide,
                show validationFailedStr ≠ combinedFactorsStr by decide,
                show partialValidationStr ≠ validationFailedStr by decide,
                show partialValidationStr ≠ poorQualityStr by decide,
                show partialValidationStr ≠ missingKeywordsStr by decide,
                show partialValidationStr ≠ combinedFactorsStr by decide,
                show poorQualityStr ≠ validationFailedStr by decide,
                show poorQualityStr ≠ partialValidationStr by decide,
                show poorQualityStr ≠ missingKeywordsStr by decide,
                show poorQualityStr ≠ combinedFactorsStr by decide,
                show missingKeywordsStr ≠ validationFailedStr by decide,
                show missingKeywordsStr ≠ partialValidationStr by decide,
                show missingKeywordsStr ≠ poorQualityStr by decide,
                show missingKeywordsStr ≠ combinedFactorsStr by decide,
                show combinedFactorsStr ≠ validationFailedStr by decide,
                show combinedFactorsStr ≠ partialValidationStr by decide,
                show combinedFactorsStr ≠ poorQualityStr by decide,
                show combinedFactorsStr ≠ missingKeywordsStr by decide]

/-! ## TypeCoercionService.coerceToNumber -/

/-- The JavaScript `\d` character class over ASCII. -/
def isDigitChar (c : Char) : Bool := 48 ≤ c.toNat && c.toNat ≤ 57

/-- Numeric value of an ASCII digit. -/
def digitVal (c : Char) : Nat := c.toNat - 48

/-- Value of a list of ASCII digits read in base 10. -/
def digitsToNat (l : List Char) : Nat := l.foldl (fun n c => 10 * n + digitVal c) 0

/-- Exponent part of JavaScript `parseFloat`: optional sign then digits;
an incomplete exponent is ignored (contributes 0). -/
def parseFloatExp (l : List Char) : ℤ :=
  match l with
  | '+' :: t => if t.takeWhile isDigitChar = [] then 0 else (digitsToNat (t.takeWhile isDigitChar) : ℤ)
  | '-' :: t => if t.takeWhile isDigitChar = [] then 0 else -(digitsToNat (t.takeWhile isDigitChar) : ℤ)
  | t => if t.takeWhile isDigitChar = [] then 0 else (digitsToNat (t.takeWhile isDigitChar) : ℤ)

/-- JavaScript `parseFloat` on a character list, idealized over exact
rationals (`NaN` is `none`; the `Infinity` literal is not modelled — it
is unreachable from the inputs the claims are about). -/
def parseFloatQ (l : List Char) : Option ℚ :=
  let sr : ℚ × List Char :=
    match l with
    | '-' :: t => (-1, t)
    | '+' :: t => (1, t)
    | t => (1, t)
  let intPart := sr.2.takeWhile isDigitChar
  let rest2 := sr.2.dropWhile isDigitChar
  let fr : List Char × List Char :=
    match rest2 with
    | '.' :: t => (t.takeWhile isDigitChar, t.dropWhile isDigitChar)
    | t => ([], t)
  if intPart = [] ∧ fr.1 = [] then none
  else
    let mant : ℚ := (digitsToNat intPart : ℚ) + (digitsToNat fr.1 : ℚ) / 10 ^ fr.1.length
    let e : ℤ :=
      match fr.2 with
      | 'e' :: t => parseFloatExp t
      | 'E' :: t => parseFloatExp t
      | _ => 0
    some (sr.1 * mant * (10 : ℚ) ^ e)

/-- JavaScript `String.prototype.lastIndexOf` for a one-character
pattern (−1 when absent). -/
def lastIndexOfChar (l : List Char) (c : Char) : ℤ :=
  if c ∈ l then (l.length : ℤ) - 1 - (l.reverse.indexOf c : ℤ) else -1

/-- JavaScript `str.replace(a, b)` with a one-character string pattern:
replace only the first occurrence. -/
def replaceFirstChar : List Char → Char → Char → List Char
  | [], _, _ => []
  | c :: t, a, b => if c = a then b :: t else c :: replaceFirstChar t a b

/-- The `/[$€£¥\s]/g` class: currency symbols and whitespace. -/
def isCurrencyOrSpace (c : Char) : Bool :=
  c = '$' || c = '€' || c = '£' || c = '¥' || isJsSpaceB c

/-- Strip currency symbols and whitespace everywhere. -/
def stripCurrency (l : List Char) : List Char := l.filter (fun c => !isCurrencyOrSpace c)

/-- `TypeCoercionService.coerceToNumber` on a string input, following
the source literally.  Note that `lastComma` and `lastPeriod` are the
positions in the trimmed string BEFORE currency/whitespace stripping,
while the substrings they cut are taken from the stripped string — the
source computes both indices before the `replace(/[$€£¥\s]/g, '')`. -/
def coerceNumString (s : String) : Option ℚ :=
  let t := jsTrimL s.data
  if t = [] then none
  else
    let hasComma := ',' ∈ t
    let hasPeriod := '.' ∈ t
    let lastComma := lastIndexOfChar t ','
    let lastPeriod := lastIndexOfChar t '.'
    let c0 := stripCurrency t
    let c1 :=
      if hasComma ∧ hasPeriod then
        if lastComma > lastPeriod then
          replaceFirstChar (c0.filter (fun c => c ≠ '.')) ',' '.'
        else c0.filter (fun c => c ≠ ',')
      else if hasComma then
        let afterComma := c0.drop (lastComma + 1).toNat
        if afterComma.length ≤ 2 then replaceFirstChar c0 ',' '.'
        else c0.filter (fun c => c ≠ ',')
      else if hasPeriod then
        let afterLastPeriod := c0.drop (lastPeriod + 1).toNat
        let periodCount := (c0.filter (fun c => c = '.')).length
        if periodCount > 1 then
          let parts := c0.splitOn '.'
          if ((parts.drop 1).dropLast).all (fun p => p.length = 3) ∧
              afterLastPeriod.length = 3 ∧
              1 ≤ (parts.headD []).length ∧ (parts.headD []).length ≤ 3 then
            c0.filter (fun c => c ≠ '.')
          else if 1 ≤ afterLastPeriod.length ∧ afterLastPeriod.length ≤ 3 then
            let lastPeriodPos := (lastIndexOfChar c0 '.').toNat
            ((c0.take lastPeriodPos).filter (fun c => c ≠ '.')) ++
              '.' :: c0.drop (lastPeriodPos + 1)
          else c0.filter (fun c => c ≠ '.')
        else c0
      else c0
    let isNeg := c1.head? = some '-' ∨ c1.head? = some '('
    let c2 :=
      if c1.head? = some '(' ∧ c1.getLast? = some ')' then (c1.drop 1).dropLast
      else c1
    let c3 :=
      match c2 with
      | '-' :: t2 => t2
      | l2 => l2
    match parseFloatQ c3 with
    | none => none
    | some q => some (if isNeg then -q else q)

/-- Modelled from the spec, for comparison with `coerceNumString`: the
locale-disambiguation algorithm of spec section 4.2 as worded there,
which measures the last-comma and last-period positions on the
currency/whitespace-stripped string (the only difference from the
source, whose indices are computed before stripping). -/
def coerceNumSpecAlg (s : String) : Option ℚ :=
  let t := jsTrimL s.data
  if t = [] then none
  else
    let hasComma := ',' ∈ t
    let hasPeriod := '.' ∈ t
    let c0 := stripCurrency t
    let lastComma := lastIndexOfChar c0 ','
    let lastPeriod := lastIndexOfChar c0 '.'
    let c1 :=
      if hasComma ∧ hasPeriod then
        if lastComma > lastPeriod then
          replaceFirstChar (c0.filter (fun c => c ≠ '.')) ',' '.'
        else c0.filter (fun c => c ≠ ',')
      else if hasComma then
        let afterComma := c0.drop (lastComma + 1).toNat
        if afterComma.length ≤ 2 then replaceFirstChar c0 ',' '.'
        else c0.filter (fun c => c ≠ ',')
      else if hasPeriod then
        let afterLastPeriod := c0.drop (lastPeriod + 1).toNat
        let periodCount := (c0.filter (fun c => c = '.')).length
        if periodCount > 1 then
          let parts := c0.splitOn '.'
          if ((parts.drop 1).dropLast).all (fun p => p.length = 3) ∧
              afterLastPeriod.length = 3 ∧
              1 ≤ (parts.headD []).length ∧ (parts.headD []).length ≤ 3 then
            c0.filter (fun c => c ≠ '.')
          else if 1 ≤ afterLastPeriod.length ∧ afterLastPeriod.length ≤ 3 then
            let lastPeriodPos := (lastIndexOfChar c0 '.').toNat
            ((c0.take lastPeriodPos).filter (fun c => c ≠ '.')) ++
              '.' :: c0.drop (lastPeriodPos + 1)
          else c0.filter (fun c => c ≠ '.')
        else c0
      else c0
    let isNeg := c1.head? = some '-' ∨ c1.head? = some '('
    let c2 :=
      if c1.head? = some '(' ∧ c1.getLast? = some ')' then (c1.drop 1).dropLast
      else c1
    let c3 :=
      match c2 with
      | '-' :: t2 => t2
      | l2 => l2
    match parseFloatQ c3 with
    | none => none
    | some q => some (if isNeg then -q else q)

/-- C3 counterexample: on the input `"$1,234"` only a comma is present
and three digits follow the comma, so the claimed algorithm strips the
comma as thousands grouping and yields 1234; the source instead
measures the two trailing characters from the pre-strip comma position
and treats the comma as a decimal point, yielding 1.234. -/
theorem c3_counterexample :
    coerceNumString "$1,234" = some (617/500) ∧
    coerceNumSpecAlg "$1,234" = some 1234 ∧
    (617/500 : ℚ) ≠ 1234 := by
  refine ⟨?_, ?_, by norm_num⟩ <;>
    · simp +decide [coerceNumString, coerceNumSpecAlg, jsTrimL, lastIndexOfChar,
        stripCurrency, replaceFirstChar, parseFloatQ, parseFloatExp,
        isCurrencyOrSpace, isJsSpaceB, isDigitChar, List.filter, digitsToNat, digitVal]
      try norm_num

/-- C3 (amended): `coerceToNumber` implements the locale-disambiguation
algorithm of spec section 4.2 with one deviation: the trailing-digit
window used for the only-comma (and only-period) rules is cut from the
stripped string at the separator position measured BEFORE
currency/whitespace stripping.  Hence the source agrees with the spec
algorithm on every input whose trimmed form contains no currency symbol
or interior whitespace, and the four quoted examples hold. -/
theorem c3_coerce_to_number_locale :
    (∀ s : String, stripCurrency (jsTrimL s.data) = jsTrimL s.data →
        coerceNumString s = coerceNumSpecAlg s) ∧
    coerceNumString "5.3620.787" = some (53620787/1000) ∧
    coerceNumString "($1,234.56)" = some (-(123456/100)) ∧
    coerceNumString "" = none ∧
    coerceNumString "abc" = none := by
  refine ⟨?_, ?_, ?_, ?_, ?_⟩
  · intro s h
    simp only [coerceNumString, coerceNumSpecAlg, h]
  all_goals
    simp +decide [coerceNumString, jsTrimL, lastIndexOfChar,
      stripCurrency, replaceFirstChar, parseFloatQ, parseFloatExp,
      isCurrencyOrSpace, isJsSpaceB, isDigitChar, List.filter, digitsToNat, digitVal]
    try norm_num

/-- Closed instance of the C3 equivalence at a currency-free input. -/
theorem c3_coerce_to_number_locale_witness :
    coerceNumString "1,234" = coerceNumSpecAlg "1,234" :=
  c3_coerce_to_number_locale.1 "1,234" (by decide)

/-! ## JavaScript values -/

/-- JavaScript values as they occur in parsed/coerced LLM output
(`undefined` is represented by `Option.none` at use sites; plain
objects do not occur in the coerced field values the claims quantify
over). -/
inductive JsValue where
  | null : JsValue
  | bool : Bool → JsValue
  | num : ℚ → JsValue
  | str : String → JsValue
  | arr : List JsValue → JsValue
deriving Repr

/-! ## ValidationService (part: field validators and confidences) -/

/-- The `/[\s-]/g` strip used by the routing/account validators. -/
def stripSpacesHyphens (s : String) : List Char :=
  s.data.filter (fun c => !(isJsSpaceB c || c == '-'))

/-- The ABA weighted checksum over nine digit characters: weights
3, 7, 1 repeating (`3·(d1+d4+d7) + 7·(d2+d5+d8) + (d3+d6+d9)`). -/
def abaChecksum (l : List Char) : Nat :=
  3 * (digitVal (l.getD 0 '0') + digitVal (l.getD 3 '0') + digitVal (l.getD 6 '0')) +
  7 * (digitVal (l.getD 1 '0') + digitVal (l.getD 4 '0') + digitVal (l.getD 7 '0')) +
  (digitVal (l.getD 2 '0') + digitVal (l.getD 5 '0') + digitVal (l.getD 8 '0'))

/-- `ValidationService.validateRoutingNumber`: strip spaces and
hyphens, require exactly nine digits, check the mod-10 ABA checksum. -/
def validateRoutingNumber : JsValue → Bool
  | .str s =>
    let cleaned := stripSpacesHyphens s
    if cleaned.length = 9 ∧ cleaned.all isDigitChar = true then
      decide (abaChecksum cleaned % 10 = 0)
    else false
  | _ => false

/-- Run of exactly `n` ASCII digits. -/
def digitsRun (l : List Char) (n : Nat) : Bool := l.length == n && l.all isDigitChar

/-- The SSN regex `/^\d{3}-\d{2}-\d{4}$/`. -/
def ssnPattern (l : List Char) : Bool :=
  l.length == 11 && digitsRun (l.take 3) 3 && (l.getD 3 ' ' == '-') &&
    digitsRun ((l.drop 4).take 2) 2 && (l.getD 6 ' ' == '-') && digitsRun (l.drop 7) 4

/-- The EIN regex `/^\d{2}-\d{7}$/`. -/
def einPattern (l : List Char) : Bool :=
  l.length == 10 && digitsRun (l.take 2) 2 && (l.getD 2 ' ' == '-') && digitsRun (l.drop 3) 7

/-- `ValidationService.validateTaxId`. -/
def validateTaxId : JsValue → Bool
  | .str s => ssnPattern s.data || einPattern s.data || digitsRun s.data 9
  | _ => false

/-- `ValidationService.validateAccountNumber`: masked `****NNNN` (at
least four asterisks then four digits) or 8–17 digits. -/
def validateAccountNumber : JsValue → Bool
  | .str s =>
    let cleaned := stripSpacesHyphens s
    let stars := cleaned.takeWhile (fun c => c == '*')
    let rest := cleaned.dropWhile (fun c => c == '*')
    if 4 ≤ stars.length ∧ digitsRun rest 4 = true then true
    else if 8 ≤ cleaned.length ∧ cleaned.length ≤ 17 ∧ cleaned.all isDigitChar = true then true
    else false
  | _ => false

/-- Extensional semantics of the email regex
`/^[^\s@]+@[^\s@]+\.[^\s@]+$/`: no whitespace anywhere, exactly one
`@` which is not first, and a period strictly inside the part after
the `@`. -/
def validateEmail : JsValue → Bool
  | .str s =>
    let l := s.data
    let a := l.takeWhile (fun c => c ≠ '@')
    let t := (l.dropWhile (fun c => c ≠ '@')).drop 1
    if (¬ l.any isJsSpaceB = true) ∧ l.count '@' = 1 ∧ a ≠ [] ∧
        ((t.drop 1).dropLast).contains '.' = true then true
    else false
  | _ => false

/-- `ValidationService.validatePhone`: strip `/[\s().-]/g`, require 10
or 11 digits. -/
def validatePhone : JsValue → Bool
  | .str s =>
    let cleaned := s.data.filter
      (fun c => !(isJsSpaceB c || c == '(' || c == ')' || c == '.' || c == '-'))
    if 10 ≤ cleaned.length ∧ cleaned.length ≤ 11 ∧ cleaned.all isDigitChar = true then true
    else false
  | _ => false

/-- Test for the JavaScript `value === ''` comparison. -/
def isEmptyStrV : JsValue → Bool
  | .str s => s == ""
  | _ => false

/-- `ValidationService.calculateValidationConfidence`.  The
`validateDateFormat` helper depends on the JavaScript `Date` parser and
is therefore passed as an oracle `dateOk`; all other branches are
embedded.  `none` models a JavaScript `undefined` value. -/
def calcValidationConfidence (dateOk : JsValue → Bool) (fieldName : String)
    (value : Option JsValue) : ℚ :=
  match value with
  | none => 0
  | some .null => 0
  | some v =>
    if isEmptyStrV v then 0
    else if jsIncludes fieldName "date" then (if dateOk v then 1 else 0.5)
    else if jsIncludes fieldName "ssn" || jsIncludes fieldName "ein" then
      (if validateTaxId v then 1 else 0.5)
    else if jsIncludes fieldName "account_number" then
      (if validateAccountNumber v then 1 else 0.7)
    else if jsIncludes fieldName "routing_number" then
      (if validateRoutingNumber v then 1 else 0.5)
    else if jsIncludes fieldName "email" then (if validateEmail v then 1 else 0.5)
    else if jsIncludes fieldName "phone" then (if validatePhone v then 1 else 0.7)
    else
      match v with
      | .str _ => 0.8
      | .num _ => 0.9
      | .bool _ => 0.9
      | _ => 0.5

/-- Characters with equal code points are equal. -/
theorem char_toNat_ne_of_ne {c d : Char} (h : c ≠ d) : c.toNat ≠ d.toNat := by
  intro he
  have h2 := congrArg Char.ofNat he
  rw [Char.ofNat_toNat, Char.ofNat_toNat] at h2
  exact h h2

/-- Changing a single digit of a nine-digit string with ABA checksum 0
breaks the checksum: each weight 3, 7, 1 is coprime to 10. -/
theorem aba_single_digit (l : List Char) (i : Nat) (c : Char)
    (hlen : l.length = 9) (hdig : l.all isDigitChar = true)
    (hsum : abaChecksum l % 10 = 0) (hi : i < 9)
    (hc : isDigitChar c = true) (hne : c ≠ l.getD i ' ') :
    ¬ (abaChecksum (l.set i c) % 10 = 0) := by
  rcases l with _ | ⟨a0, _ | ⟨a1, _ | ⟨a2, _ | ⟨a3, _ | ⟨a4, _ | ⟨a5, _ | ⟨a6, _ | ⟨a7, _ | ⟨a8, rest⟩⟩⟩⟩⟩⟩⟩⟩⟩ <;>
    simp_all
  obtain rfl : rest = [] := by simpa using hlen
  simp only [List.all_cons, List.all_nil, Bool.and_eq_true, isDigitChar,
    decide_eq_true_eq] at hdig
  have hc2 : 48 ≤ c.toNat ∧ c.toNat ≤ 57 := by
    simpa [isDigitChar, decide_eq_true_eq] using hc
  interval_cases i <;>
    · simp only [List.set, List.getD, List.get?] at hne ⊢
      have hnn := char_toNat_ne_of_ne hne
      simp only [abaChecksum, digitVal, List.getD] at hsum ⊢
      simp at hsum hnn ⊢
      omega

/-- C7 counterexample: an empty-string routing value is invalid but
receives validation confidence 0 from the generic empty-value guard,
not the 0.5 the claim asserts for every invalid value. -/
theorem c7_counterexample :
    calcValidationConfidence (fun _ => false) "routing_number" (some (.str "")) = 0 ∧
    validateRoutingNumber (.str "") = false ∧
    (0 : ℚ) ≠ 0.5 := ⟨rfl, by decide, by norm_num⟩

/-- C7 (amended): `validateRoutingNumber` accepts exactly the values
whose space/hyphen-stripped form is nine digits with ABA weighted sum
(weights 3,7,1) divisible by 10; `"021000021"` is valid; altering any
single digit of a valid nine-digit routing string breaks the checksum;
and a routing-number field (one whose name avoids the earlier
date/ssn/ein/account guards) receives validation confidence 1.0 when
valid and 0.5 when invalid, except that null, undefined and
empty-string values score 0 via the generic empty-value guard. -/
theorem c7_routing_number_validation :
    (∀ s : String, validateRoutingNumber (.str s) = true ↔
      ((stripSpacesHyphens s).length = 9 ∧ (stripSpacesHyphens s).all isDigitChar = true ∧
        abaChecksum (stripSpacesHyphens s) % 10 = 0)) ∧
    validateRoutingNumber (.str "021000021") = true ∧
    (∀ (l : List Char) (i : Nat) (c : Char), l.length = 9 → l.all isDigitChar = true →
      abaChecksum l % 10 = 0 → i < 9 → isDigitChar c = true → c ≠ l.getD i ' ' →
      ¬ (abaChecksum (l.set i c) % 10 = 0)) ∧
    (∀ (dateOk : JsValue → Bool) (name v : String),
      jsIncludes name "routing_number" = true → jsIncludes name "date" = false →
      jsIncludes name "ssn" = false → jsIncludes name "ein" = false →
      jsIncludes name "account_number" = false → v ≠ "" →
      calcValidationConfidence dateOk name (some (.str v)) =
        if validateRoutingNumber (.str v) then 1 else 0.5) := by
  refine ⟨?_, by decide, aba_single_digit, ?_⟩
  · intro s
    simp only [validateRoutingNumber]
    split_ifs with h
    · simp only [decide_eq_true_eq]
      exact ⟨fun hm => ⟨h.1, h.2, hm⟩, fun hm => hm.2.2⟩
    · simp only [Bool.false_eq_true, false_iff]
      intro hm
      exact h ⟨hm.1, hm.2.1⟩
  · intro dateOk name v hr hd hs he ha hv
    simp [calcValidationConfidence, isEmptyStrV, beq_iff_eq, hv, hd, hs, he, ha, hr]

/-- Closed instance of the C7 alteration property: flipping the first
digit of `"021000021"` to `'1'` breaks the ABA checksum. -/
theorem c7_routing_number_validation_witness :
    ¬ (abaChecksum (("021000021".data).set 0 '1') % 10 = 0) :=
  c7_routing_number_validation.2.2.1 "021000021".data 0 '1'
    (by decide) (by decide) (by decide) (by decide) (by decide) (by decide)

/-! ## ConfidenceCalculator: classification entry point -/

/-- `getExpectedKeywords` over the `EXPECTED_KEYWORDS_MAP` table
(unknown types give the empty list). -/
def getExpectedKeywords (documentType : String) : List String :=
  if documentType = "Bank Statement" then
    ["account", "balance", "statement", "bank", "transaction"]
  else if documentType = "Government ID" then
    ["license", "identification", "id", "expires", "date of birth", "dob"]
  else if documentType = "W-9" then
    ["w-9", "tax", "ein", "ssn", "irs", "taxpayer"]
  else if documentType = "Certificate of Insurance" then
    ["insurance", "policy", "certificate", "coverage", "insured"]
  else if documentType = "Articles of Incorporation" then
    ["articles", "incorporation", "state", "corporation", "entity", "filed"]
  else []

/-- `mapMatchRatioToClarityConfidence`: keyword match-ratio buckets. -/
def mapMatchRatioToClarityConfidence (matchRatio : ℚ) : ℚ :=
  if matchRatio ≥ 1.0 then 1.0
  else if matchRatio ≥ 0.5 then 0.7
  else 0.4

/-- `ConfidenceCalculator.calculateClarityConfidence`: 0.4 for empty
text, 1.0 when no keywords are configured, otherwise bucketized
case-insensitive keyword match ratio. -/
def calculateClarityConfidence (text : String) (expectedKeywords : List String) : ℚ :=
  if (jsTrimL text.data).length = 0 then 0.4
  else if expectedKeywords.length = 0 then 1.0
  else
    let lowerText := jsToLower text
    let found := expectedKeywords.countP (fun kw => jsIncludes lowerText (jsToLower kw))
    mapMatchRatioToClarityConfidence ((found : ℚ) / (expectedKeywords.length : ℚ))

/-- A parsed LLM classification reply `{document_type, confidence,
evidence}`; `confidence := none` models an absent or non-numeric
confidence field. -/
structure ParsedReply where
  document_type : String
  confidence : Option ℚ
  evidence : List String
deriving Repr, DecidableEq

/-- `ConfidenceCalculator.calculateLLMConfidence` on a parsed reply
object: clamp the numeric `confidence` field, defaulting to 0.8. -/
def calculateLLMConfidence (p : ParsedReply) : ℚ :=
  match p.confidence with
  | some c => clampConfidence c
  | none => 0.8

/-- `ConfidenceCalculator.calculateClassificationConfidence`:
validation confidence is fixed at 1.0, clarity comes from the
predicted type's keywords, and the low-confidence reasons are
generated against the threshold. -/
def calculateClassificationConfidence (p : ParsedReply) (ocrText : String)
    (predictedType : String) (threshold : ℚ) : ConfidenceBreakdown × List String :=
  let llm := calculateLLMConfidence p
  let clarity := calculateClarityConfidence ocrText (getExpectedKeywords predictedType)
  let b := calculateFinalConfidence llm 1.0 clarity
  (b, generateLowConfidenceReasons b threshold)

/-! ## ClassificationService -/

/-- The `DocumentTypeEnum` values. -/
def validDocumentTypes : List String :=
  ["Bank Statement", "Government ID", "W-9", "Certificate of Insurance",
   "Articles of Incorporation", "Unknown"]

/-- `DocumentTypeEnum.safeParse` success. -/
def isValidDocType (s : String) : Bool := validDocumentTypes.contains s

/-- The fixed `DOCUMENT_TYPE_MAPPING` lexical remap table, looked up on
the lower-cased predicted type. -/
def mapDocumentTypeVariation (predictedType : String) : Option String :=
  let n := jsToLower predictedType
  if n = "conditional sales contract" then some "Certificate of Insurance"
  else if n = "sales contract" then some "Certificate of Insurance"
  else if n = "contract" then some "Certificate of Insurance"
  else if n = "driver license" then some "Government ID"
  else if n = "drivers license" then some "Government ID"
  else if n = "passport" then some "Government ID"
  else if n = "tax form" then some "W-9"
  else if n = "w9" then some "W-9"
  else none

/-- `adjustConfidenceAfterMapping`: cap at 0.6, with the JavaScript
`||` default (a missing or zero confidence becomes 0.5 first). -/
def adjustConfidenceAfterMapping (currentConfidence : Option ℚ) : ℚ :=
  min (match currentConfidence with
       | some c => if c = 0 then 0.5 else c
       | none => 0.5) 0.6

/-- Lines 103–120 of ClassificationService.ts: validate the predicted
type against the enum and, on failure, try the lexical remap with the
confidence cap; a still-invalid type is a thrown error. -/
def resolveFirstReply (p0 : ParsedReply) : Except String ParsedReply :=
  if isValidDocType p0.document_type then Except.ok p0
  else
    match mapDocumentTypeVariation p0.document_type with
    | some mapped =>
      let p1 : ParsedReply :=
        { p0 with document_type := mapped,
                  confidence := some (adjustConfidenceAfterMapping p0.confidence) }
      if isValidDocType p1.document_type then Except.ok p1
      else Except.error ("Invalid document type: " ++ p1.document_type)
    | none => Except.error ("Invalid document type: " ++ p0.document_type)

/-- Outcomes of the external calls made by one `classify` invocation.
`retryParsed := none` models a retry whose JSON reply failed to parse
(the source catches that and keeps the first pass).
`retryToolUsed` records whether the retry's `chatWithTools` call used
the tool; the source never reads it. -/
structure ClassifyEnv where
  ocrText : String
  threshold : ℚ
  first : ParsedReply
  firstToolUsed : Bool
  exampleFound : Bool
  retryParsed : Option ParsedReply
  retryToolUsed : Bool
deriving Repr

/-- The `ClassificationModel` result of `classify`, extended with ghost
fields that observe the control flow (`retried`: the retry LLM call was
made; `adoptedRetry`: its result replaced the first pass; `firstFinal`
and `retryFinal`: the two computed final confidences; `llmCalls`: number
of `chatWithTools` calls made). -/
structure ClassifyOutput where
  predicted_type : String
  confidence : ℚ
  threshold : ℚ
  requires_review : Bool
  evidence : List String
  tool_used : Bool
  llm_confidence : ℚ
  clarity_confidence : ℚ
  final_confidence : ℚ
  reasons : List String
  retried : Bool
  adoptedRetry : Bool
  firstFinal : ℚ
  retryFinal : Option ℚ
  llmCalls : Nat
deriving Repr

/-- Assemble the returned `ClassificationModel` from the adopted parse
and breakdown (lines 183–196 of the source), plus the ghost fields. -/
def buildClassifyOutput (env : ClassifyEnv) (p : ParsedReply)
    (cb : ConfidenceBreakdown × List String) (toolUsed retried adopted : Bool)
    (firstFinal : ℚ) (retryFinal : Option ℚ) : ClassifyOutput :=
  { predicted_type := p.document_type
    confidence := cb.1.final_confidence
    threshold := env.threshold
    requires_review := decide (cb.1.final_confidence < env.threshold)
    evidence := p.evidence
    tool_used := toolUsed
    llm_confidence := cb.1.llm_confidence
    clarity_confidence := cb.1.clarity_confidence
    final_confidence := cb.1.final_confidence
    reasons := cb.2
    retried := retried
    adoptedRetry := adopted
    firstFinal := firstFinal
    retryFinal := retryFinal
    llmCalls := if retried then 2 else 1 }

/-- `ClassificationService.classify` as a function of the outcomes of
its external calls: validate/remap the first reply, score it, perform
the single gated learning retry (`final < 0.7` and tool not used, with
a gold example found), adopt the retry only on a strictly higher
score, and set `tool_used` to the first pass's flag or to `true` upon
adoption. -/
def classifyCore (env : ClassifyEnv) : Except String ClassifyOutput :=
  match resolveFirstReply env.first with
  | Except.error e => Except.error e
  | Except.ok parsed =>
    let cb := calculateClassificationConfidence parsed env.ocrText
      parsed.document_type env.threshold
    if cb.1.final_confidence < 0.7 ∧ env.firstToolUsed = false then
      if env.exampleFound then
        match env.retryParsed with
        | some rp =>
          let rb := calculateClassificationConfidence rp env.ocrText
            rp.document_type env.threshold
          if rb.1.final_confidence > cb.1.final_confidence then
            Except.ok (buildClassifyOutput env rp rb true true true
              cb.1.final_confidence (some rb.1.final_confidence))
          else
            Except.ok (buildClassifyOutput env parsed cb env.firstToolUsed true false
              cb.1.final_confidence (some rb.1.final_confidence))
        | none =>
          Except.ok (buildClassifyOutput env parsed cb env.firstToolUsed true false
            cb.1.final_confidence none)
      else
        Except.ok (buildClassifyOutput env parsed cb env.firstToolUsed false false
          cb.1.final_confidence none)
    else
      Except.ok (buildClassifyOutput env parsed cb env.firstToolUsed false false
        cb.1.final_confidence none)

/-- Concrete environment exercising an unadopted retry whose pass used
the tool: first pass scores 0.5·1·0.4 = 0.2 < 0.7 with no tool use, a
gold example exists, and the retry scores lower (0.1·1·0.4 = 0.04). -/
def c4Env : ClassifyEnv :=
  { ocrText := "x"
    threshold := 0.7
    first := ⟨"Bank Statement", some 0.5, []⟩
    firstToolUsed := false
    exampleFound := true
    retryParsed := some ⟨"Bank Statement", some 0.1, []⟩
    retryToolUsed := true }

/-- C4 counterexample: the retry pass used the tool
(`retryToolUsed = true`) and the retry was performed but not adopted,
yet the returned `tool_used` flag is `false` — the source only sets it
on adoption, so "true if either pass used the tool" fails. -/
theorem c4_counterexample :
    (classifyCore c4Env).map (fun o => (o.retried, o.tool_used)) =
      Except.ok (true, false) ∧
    c4Env.retryToolUsed = true := by
  constructor
  · simp +decide [classifyCore, c4Env, resolveFirstReply, isValidDocType,
      validDocumentTypes, calculateClassificationConfidence, calculateLLMConfidence,
      calculateClarityConfidence, getExpectedKeywords, mapMatchRatioToClarityConfidence,
      clampConfidence, calculateFinalConfidence, jsToLower, jsIncludes, isSubstrOf,
      jsTrimL, toLowerChar, buildClassifyOutput, Except.map]
    norm_num
  · rfl

/-- C4 (amended): `classify` performs at most one learning retry per
call (at most 2 LLM calls), only when the first pass's final confidence
is strictly below 0.7, the first pass did not use the tool, and a gold
example was found; the retry is adopted exactly when its recomputed
final confidence is strictly higher than the first pass's, otherwise
the first-pass confidence is returned unchanged with the first pass's
tool flag; and the returned `tool_used` flag equals "first pass used
the tool OR the retry was adopted" (the retry pass's own tool usage is
never consulted). -/
theorem c4_single_learning_retry (env : ClassifyEnv) (out : ClassifyOutput)
    (h : classifyCore env = Except.ok out) :
    out.llmCalls ≤ 2 ∧
    (out.retried = true →
      out.firstFinal < 0.7 ∧ env.firstToolUsed = false ∧ env.exampleFound = true) ∧
    (out.adoptedRetry = true ↔
      out.retried = true ∧ ∃ rf, out.retryFinal = some rf ∧ out.firstFinal < rf) ∧
    (out.adoptedRetry = false →
      out.final_confidence = out.firstFinal ∧ out.tool_used = env.firstToolUsed) ∧
    out.tool_used = (env.firstToolUsed || out.adoptedRetry) ∧
    out.confidence = out.final_confidence := by
  unfold classifyCore at h
  cases hr : resolveFirstReply env.first with
  | error e => rw [hr] at h; exact absurd h (by simp)
  | ok parsed =>
    rw [hr] at h
    simp only at h
    split_ifs at h with hgate hex
    · cases hre : env.retryParsed with
      | some rp =>
        rw [hre] at h
        simp only at h
        split_ifs at h with hcmp
        · rw [Except.ok.injEq] at h
          subst h
          refine ⟨by norm_num [buildClassifyOutput], fun _ => ⟨hgate.1, hgate.2, hex⟩,
            ⟨fun _ => ⟨rfl, _, rfl, hcmp⟩, fun _ => rfl⟩,
            fun h4 => absurd h4 (by norm_num [buildClassifyOutput]), by simp [buildClassifyOutput], rfl⟩
        · rw [Except.ok.injEq] at h
          subst h
          refine ⟨by norm_num [buildClassifyOutput], fun _ => ⟨hgate.1, hgate.2, hex⟩, ?_,
            fun _ => ⟨rfl, rfl⟩, by simp [buildClassifyOutput], rfl⟩
          constructor
          · intro h5; exact absurd h5 (by norm_num [buildClassifyOutput])
          · rintro ⟨-, rf, hrf, hlt⟩
            rw [show (buildClassifyOutput env parsed
                (calculateClassificationConfidence parsed env.ocrText
                  parsed.document_type env.threshold) env.firstToolUsed true false
                (calculateClassificationConfidence parsed env.ocrText
                  parsed.document_type env.threshold).1.final_confidence
                (some (calculateClassificationConfidence rp env.ocrText
                  rp.document_type env.threshold).1.final_confidence)).retryFinal =
              some (calculateClassificationConfidence rp env.ocrText
                rp.document_type env.threshold).1.final_confidence from rfl] at hrf
            rw [Option.some.injEq] at hrf
            subst hrf
            exact absurd hlt hcmp
      | none =>
        rw [hre] at h
        simp only [Except.ok.injEq] at h
        subst h
        refine ⟨by norm_num [buildClassifyOutput], fun _ => ⟨hgate.1, hgate.2, hex⟩, ?_,
          fun _ => ⟨rfl, rfl⟩, by simp [buildClassifyOutput], rfl⟩
        constructor
        · intro h5; exact absurd h5 (by norm_num [buildClassifyOutput])
        · rintro ⟨-, rf, hrf, -⟩
          exact absurd hrf (by simp [buildClassifyOutput])
    · rw [Except.ok.injEq] at h
      subst h
      refine ⟨by norm_num [buildClassifyOutput], fun h2 => absurd h2 (by norm_num [buildClassifyOutput]), ?_,
        fun _ => ⟨rfl, rfl⟩, by simp [buildClassifyOutput], rfl⟩
      constructor
      · intro h5; exact absurd h5 (by norm_num [buildClassifyOutput])
      · rintro ⟨h5, -⟩; exact absurd h5 (by norm_num [buildClassifyOutput])
    · rw [Except.ok.injEq] at h
      subst h
      refine ⟨by norm_num [buildClassifyOutput], fun h2 => absurd h2 (by norm_num [buildClassifyOutput]), ?_,
        fun _ => ⟨rfl, rfl⟩, by simp [buildClassifyOutput], rfl⟩
      constructor
      · intro h5; exact absurd h5 (by norm_num [buildClassifyOutput])
      · rintro ⟨h5, -⟩; exact absurd h5 (by norm_num [buildClassifyOutput])

/-- Environment for the closed C4 instance: a valid first-pass type
with confidence 1 over empty OCR text (clarity 0.4, final 0.4 < 0.7)
but with no gold example, so no retry occurs. -/
def c4WitEnv : ClassifyEnv :=
  { ocrText := ""
    threshold := 0.7
    first := ⟨"Unknown", some 1, []⟩
    firstToolUsed := false
    exampleFound := false
    retryParsed := none
    retryToolUsed := false }

/-- The output `classifyCore` produces on `c4WitEnv`. -/
def c4WitOut : ClassifyOutput :=
  { predicted_type := "Unknown", confidence := 0.4, threshold := 0.7,
    requires_review := true, evidence := [], tool_used := false,
    llm_confidence := 1, clarity_confidence := 0.4, final_confidence := 0.4,
    reasons := [poorQualityStr], retried := false, adoptedRetry := false,
    firstFinal := 0.4, retryFinal := none, llmCalls := 1 }

/-- Evaluation of `classifyCore` on the C4 witness environment. -/
theorem c4WitEval : classifyCore c4WitEnv = Except.ok c4WitOut := by
  simp +decide [classifyCore, c4WitEnv, c4WitOut, resolveFirstReply, isValidDocType,
    validDocumentTypes, calculateClassificationConfidence, calculateLLMConfidence,
    calculateClarityConfidence, getExpectedKeywords, mapMatchRatioToClarityConfidence,
    clampConfidence, calculateFinalConfidence, jsToLower, jsIncludes, isSubstrOf,
    jsTrimL, toLowerChar, buildClassifyOutput, generateLowConfidenceReasons]
  norm_num

/-- Closed instance of C4 at a concrete environment. -/
theorem c4_single_learning_retry_witness :
    c4WitOut.llmCalls ≤ 2 ∧
    c4WitOut.tool_used = (c4WitEnv.firstToolUsed || c4WitOut.adoptedRetry) :=
  ⟨(c4_single_learning_retry c4WitEnv c4WitOut c4WitEval).1,
   (c4_single_learning_retry c4WitEnv c4WitOut c4WitEval).2.2.2.2.1⟩

/-- Environment exercising an adopted retry that bypasses the remap:
every LLM reply carries `{document_type: "Driver License", confidence:
0.9}`; the first pass is remapped and capped (final 0.24), the retry
reply is scored without enum validation (clarity 1.0 for the unknown
type, final 0.9) and adopted. -/
def c6Env : ClassifyEnv :=
  { ocrText := "x"
    threshold := 0.7
    first := ⟨"Driver License", some 0.9, []⟩
    firstToolUsed := false
    exampleFound := true
    retryParsed := some ⟨"Driver License", some 0.9, []⟩
    retryToolUsed := false }

/-- C6 counterexample: with every reply carrying Driver License / 0.9,
the adopted retry makes the service emit the raw invalid type
`"Driver License"` with confidence 0.9 — not `Government ID` with
confidence at most 0.6 as the claim states. -/
theorem c6_counterexample :
    (classifyCore c6Env).map (fun o => (o.predicted_type, o.confidence)) =
      Except.ok ("Driver License", 0.9) ∧
    "Driver License" ≠ "Government ID" ∧ ¬ ((0.9 : ℚ) ≤ 0.6) := by
  refine ⟨?_, by decide, by norm_num⟩
  simp +decide [classifyCore, c6Env, resolveFirstReply, isValidDocType,
    validDocumentTypes, mapDocumentTypeVariation, adjustConfidenceAfterMapping,
    calculateClassificationConfidence, calculateLLMConfidence,
    calculateClarityConfidence, getExpectedKeywords, mapMatchRatioToClarityConfidence,
    clampConfidence, calculateFinalConfidence, jsToLower, jsIncludes, isSubstrOf,
    jsTrimL, toLowerChar, buildClassifyOutput, Except.map]
  norm_num

/-- Clarity confidence always lands in one of the buckets, hence in
`[0, 1]`. -/
theorem calculateClarityConfidence_bounds (text : String) (kws : List String) :
    0 ≤ calculateClarityConfidence text kws ∧ calculateClarityConfidence text kws ≤ 1 := by
  simp only [calculateClarityConfidence, mapMatchRatioToClarityConfidence]
  split_ifs <;> norm_num

/-- C6 (amended): a first-pass reply of `{document_type: "Driver
License", confidence: 0.9}` is remapped through the lexical table to
`Government ID` with parsed confidence capped at min(0.9, 0.6) = 0.6,
and whenever no learning retry is adopted the service emits type
`Government ID` with confidence at most 0.6.  (An adopted retry reply
bypasses the enum validation and the remap, so it can change the
emitted type and confidence — see the counterexample.) -/
theorem c6_driver_license_remap :
    mapDocumentTypeVariation "Driver License" = some "Government ID" ∧
    adjustConfidenceAfterMapping (some 0.9) = 0.6 ∧
    (∀ (env : ClassifyEnv) (ev : List String) (out : ClassifyOutput),
      env.first = ⟨"Driver License", some 0.9, ev⟩ →
      classifyCore env = Except.ok out →
      out.adoptedRetry = false →
      out.predicted_type = "Government ID" ∧ out.confidence ≤ 0.6) := by
  refine ⟨by decide, by norm_num [adjustConfidenceAfterMapping], ?_⟩
  intro env ev out hfirst hout hadopt
  have hres : resolveFirstReply env.first =
      Except.ok ⟨"Government ID", some 0.6, ev⟩ := by
    rw [hfirst]
    simp +decide [resolveFirstReply, isValidDocType, validDocumentTypes,
      mapDocumentTypeVariation, jsToLower, toLowerChar, adjustConfidenceAfterMapping]
    norm_num
  have hcl := calculateClarityConfidence_bounds env.ocrText
    (getExpectedKeywords "Government ID")
  have hllm : calculateLLMConfidence ⟨"Government ID", some 0.6, ev⟩ = 0.6 := by
    norm_num [calculateLLMConfidence, clampConfidence]
  have hbound : (calculateClassificationConfidence ⟨"Government ID", some 0.6, ev⟩
      env.ocrText "Government ID" env.threshold).1.final_confidence ≤ 0.6 := by
    simp only [calculateClassificationConfidence, calculateFinalConfidence, hllm]
    have hx : (0.6 : ℚ) * 1.0 *
        calculateClarityConfidence env.ocrText (getExpectedKeywords "Government ID") ≤
          0.6 := by nlinarith [hcl.1, hcl.2]
    exact max_le (by norm_num) (le_trans (min_le_right _ _) hx)
  unfold classifyCore at hout
  rw [hres] at hout
  simp only at hout
  split_ifs at hout with hgate hex
  · cases hre : env.retryParsed with
    | some rp =>
      rw [hre] at hout
      simp only at hout
      split_ifs at hout with hcmp
      · rw [Except.ok.injEq] at hout
        subst hout
        exact absurd hadopt (by norm_num [buildClassifyOutput])
      · rw [Except.ok.injEq] at hout
        subst hout
        exact ⟨rfl, hbound⟩
    | none =>
      rw [hre] at hout
      simp only [Except.ok.injEq] at hout
      subst hout
      exact ⟨rfl, hbound⟩
  · rw [Except.ok.injEq] at hout
    subst hout
    exact ⟨rfl, hbound⟩
  · rw [Except.ok.injEq] at hout
    subst hout
    exact ⟨rfl, hbound⟩

/-- Environment for the closed C6 instance: the Driver License reply
with no gold example available, so no retry occurs. -/
def c6WitEnv : ClassifyEnv :=
  { ocrText := ""
    threshold := 0.7
    first := ⟨"Driver License", some 0.9, []⟩
    firstToolUsed := false
    exampleFound := false
    retryParsed := none
    retryToolUsed := false }

/-- The output `classifyCore` produces on `c6WitEnv`: the remapped
type with capped and rescored confidence 0.6·1·0.4 = 0.24. -/
def c6WitOut : ClassifyOutput :=
  { predicted_type := "Government ID", confidence := 0.24, threshold := 0.7,
    requires_review := true, evidence := [], tool_used := false,
    llm_confidence := 0.6, clarity_confidence := 0.4, final_confidence := 0.24,
    reasons := [llmReasonStr 0.6, poorQualityStr], retried := false,
    adoptedRetry := false, firstFinal := 0.24, retryFinal := none, llmCalls := 1 }

/-- Evaluation of `classifyCore` on the C6 witness environment. -/
theorem c6WitEval : classifyCore c6WitEnv = Except.ok c6WitOut := by
  simp +decide [classifyCore, c6WitEnv, c6WitOut, resolveFirstReply, isValidDocType,
    validDocumentTypes, mapDocumentTypeVariation, adjustConfidenceAfterMapping,
    calculateClassificationConfidence, calculateLLMConfidence,
    calculateClarityConfidence, getExpectedKeywords, mapMatchRatioToClarityConfidence,
    clampConfidence, calculateFinalConfidence, jsToLower, jsIncludes, isSubstrOf,
    jsTrimL, toLowerChar, buildClassifyOutput, generateLowConfidenceReasons]
  norm_num

/-- Closed instance of C6 at a concrete environment without an adopted
retry. -/
theorem c6_driver_license_remap_witness :
    c6WitOut.predicted_type = "Government ID" ∧ c6WitOut.confidence ≤ 0.6 :=
  c6_driver_license_remap.2.2 c6WitEnv [] c6WitOut rfl c6WitEval rfl

/-! ## OllamaClient.chatWithTools and ToolRegistry -/

/-- The `arguments` of a tool call, typed `string | Record<string, any>`
in `OllamaMessage`: `str` is the string case (fed to `JSON.parse`),
`record` the already-parsed object case, its value kept abstract as the
token the handler receives. -/
inductive ToolArgsM where
  | str (s : String)
  | record (v : String)
deriving Repr, DecidableEq

/-- One tool call of an assistant reply. -/
structure ToolCallM where
  name : String
  args : ToolArgsM
deriving Repr, DecidableEq

/-- One LLM reply: content plus the (possibly empty) tool-call list. -/
structure ReplyM where
  content : String
  tool_calls : List ToolCallM
deriving Repr, DecidableEq

/-- A chat transcript message. -/
structure MessageM where
  role : String
  content : String
  tool_calls : List ToolCallM
deriving Repr, DecidableEq

/-- JavaScript `String(error)` on an `Error` with message `msg`. -/
def jsErrorToString (msg : String) : String := "Error: " ++ msg

/-- Escape of one character under `JSON.stringify` (quote and
backslash; the control-character escapes do not occur in the error
texts of the source). -/
def jsonEscapeChar (c : Char) : List Char :=
  if c = '"' then ['\\', '"'] else if c = '\\' then ['\\', '\\'] else [c]

/-- String escape under `JSON.stringify`. -/
def jsonEscape (s : String) : String := String.mk (s.data.flatMap jsonEscapeChar)

/-- `createErrorResponse`: `JSON.stringify({ error: String(error) })`. -/
def createErrorResponse (e : String) : String :=
  "\x7b\"error\":\"" ++ jsonEscape e ++ "\"\x7d"

/-- `parseToolArguments`: `typeof args === 'string' ? JSON.parse(args)
: args`. `JSON.parse` is a JS builtin, passed in as the oracle
`jsonParse`: `Except.ok v` is a successful parse (the resulting value
abstracted as the token `v`), `Except.error e` a thrown `SyntaxError`
with text `e`. The call site (line 603) sits outside the per-call
try/catch, so a parse error is not converted to an envelope. -/
def parseToolArguments (jsonParse : String → Except String String) :
    ToolArgsM → Except String String
  | ToolArgsM.str s => jsonParse s
  | ToolArgsM.record v => Except.ok v

/-- Run the handler on one tool call whose arguments parsed to `av`,
converting a thrown handler exception into the JSON error envelope
(the try/catch of lines 611–617). -/
def execToolCall (toolHandler : String → String → Except String String)
    (nm av : String) : String :=
  match toolHandler nm av with
  | Except.ok r => r
  | Except.error m => createErrorResponse (jsErrorToString m)

/-- The `for (const toolCall of ...)` body over a tool-carrying reply:
each call's arguments go through `parseToolArguments` — a parse error
propagates, aborting the loop — then the handler runs inside the
try/catch and the assistant message plus the synthetic tool-result
turn are appended. -/
def processToolCalls (jsonParse : String → Except String String)
    (toolHandler : String → String → Except String String)
    (r : ReplyM) : List ToolCallM → Except String (List MessageM)
  | [] => Except.ok []
  | tc :: rest =>
    match parseToolArguments jsonParse tc.args with
    | Except.error e => Except.error e
    | Except.ok av =>
      match processToolCalls jsonParse toolHandler r rest with
      | Except.error e => Except.error e
      | Except.ok turns =>
        Except.ok (⟨"assistant", r.content, r.tool_calls⟩ ::
          ⟨"tool", execToolCall toolHandler tc.name av, []⟩ :: turns)

/-- Result record of `chatWithTools`, with the final transcript. -/
structure ChatResultM where
  response : ReplyM
  toolUsed : Bool
  iterations : Nat
  messages : List MessageM
deriving Repr, DecidableEq

/-- `DEFAULT_MAX_ITERATIONS` of OllamaClient.ts; both pipeline callers
omit `options.maxIterations`, so the loop always uses it. -/
def DEFAULT_MAX_ITERATIONS : Nat := 3

/-- The `while (iterations < maxIterations)` loop with the stream of
LLM replies passed explicitly (`replies i` is the reply of iteration
`i`, 0-based); `fuel` counts the remaining iterations. An uncaught
argument-parse error propagates out of the loop. -/
def chatWithToolsGo (jsonParse : String → Except String String)
    (toolHandler : String → String → Except String String)
    (replies : Nat → ReplyM) (maxIterations : Nat) :
    Nat → Nat → Bool → List MessageM → Except String ChatResultM
  | _, 0, _, _ =>
    Except.error ("Max tool iterations (" ++ toString maxIterations ++ ") exceeded")
  | i, fuel + 1, toolUsed, msgs =>
    if (replies i).tool_calls = [] then
      Except.ok { response := replies i, toolUsed := toolUsed,
                  iterations := i + 1, messages := msgs }
    else
      match processToolCalls jsonParse toolHandler (replies i) (replies i).tool_calls with
      | Except.error e => Except.error e
      | Except.ok turns =>
        chatWithToolsGo jsonParse toolHandler replies maxIterations (i + 1) fuel true
          (msgs ++ turns)

/-- `OllamaClient.chatWithTools` (with the default iteration cap). -/
def chatWithTools (messages : List MessageM)
    (jsonParse : String → Except String String)
    (toolHandler : String → String → Except String String)
    (replies : Nat → ReplyM) : Except String ChatResultM :=
  chatWithToolsGo jsonParse toolHandler replies DEFAULT_MAX_ITERATIONS
    0 DEFAULT_MAX_ITERATIONS false messages

/-- `ToolRegistry` holds the single registered retrieval tool; its
database-backed handler is abstracted as `goldHandler`.
`ToolRegistry.executeTool` throws `Tool not found` for any other
name (modelled as `Except.error`). -/
def registryToolHandler (goldHandler : String → Except String String) :
    String → String → Except String String :=
  fun toolName args =>
    if toolName = "get_gold_example" then goldHandler args
    else Except.error ("Tool not found: " ++ toolName)

/-- A parse error of `processToolCalls` comes from some call of the
list whose arguments fail `parseToolArguments`. -/
theorem processToolCalls_error_sound (jsonParse : String → Except String String)
    (toolHandler : String → String → Except String String) (r : ReplyM) :
    ∀ l e, processToolCalls jsonParse toolHandler r l = Except.error e →
      ∃ tc ∈ l, parseToolArguments jsonParse tc.args = Except.error e := by
  intro l
  induction l with
  | nil => intro e h; simp [processToolCalls] at h
  | cons tc rest ih =>
    intro e h
    simp only [processToolCalls] at h
    cases hp : parseToolArguments jsonParse tc.args with
    | error e0 =>
      rw [hp] at h
      simp only [Except.error.injEq] at h
      exact ⟨tc, by simp, by rw [hp, h]⟩
    | ok av =>
      rw [hp] at h
      cases hq : processToolCalls jsonParse toolHandler r rest with
      | error e1 =>
        rw [hq] at h
        simp only [Except.error.injEq] at h
        obtain ⟨tc1, htc1, hp1⟩ := ih e1 hq
        exact ⟨tc1, by simp [htc1], by rw [hp1, h]⟩
      | ok turns =>
        rw [hq] at h
        simp at h

/-- Soundness of a successful run of the `chatWithTools` loop. -/
theorem chatWithToolsGo_ok_sound (jsonParse : String → Except String String)
    (toolHandler : String → String → Except String String)
    (replies : Nat → ReplyM) (maxIterations : Nat) :
    ∀ fuel i toolUsed msgs res,
      chatWithToolsGo jsonParse toolHandler replies maxIterations i fuel toolUsed msgs =
        Except.ok res →
      res.iterations ≤ i + fuel ∧ i < res.iterations ∧
      res.response = replies (res.iterations - 1) ∧
      (replies (res.iterations - 1)).tool_calls = [] ∧
      (∀ j, i ≤ j → j + 1 < res.iterations → (replies j).tool_calls ≠ []) := by
  intro fuel
  induction fuel with
  | zero => intro i toolUsed msgs res h; simp [chatWithToolsGo] at h
  | succ fuel ih =>
    intro i toolUsed msgs res h
    simp only [chatWithToolsGo] at h
    by_cases h0 : (replies i).tool_calls = []
    · rw [if_pos h0] at h
      simp only [Except.ok.injEq] at h
      subst h
      refine ⟨by simp only []; omega, by simp only []; omega, by simp, by simpa using h0, ?_⟩
      intro j hij hj
      simp only [] at hj
      exact absurd hj (by omega)
    · rw [if_neg h0] at h
      cases hp : processToolCalls jsonParse toolHandler (replies i) (replies i).tool_calls with
      | error e0 => rw [hp] at h; simp at h
      | ok turns =>
        rw [hp] at h
        simp only [] at h
        obtain ⟨hle, hlt, hresp, hempty, hall⟩ := ih (i + 1) true (msgs ++ turns) res h
        refine ⟨by omega, by omega, hresp, hempty, ?_⟩
        intro j hij hj
        by_cases hji : i + 1 ≤ j
        · exact hall j hji hj
        · have hj' : j = i := by omega
          rw [hj']; exact h0

/-- Soundness of a thrown error of the `chatWithTools` loop: it is the
max-iterations error (every reply of the window carrying tool calls) or
an argument-parse error of some tool call of the window. -/
theorem chatWithToolsGo_error_sound (jsonParse : String → Except String String)
    (toolHandler : String → String → Except String String)
    (replies : Nat → ReplyM) (maxIterations : Nat) :
    ∀ fuel i toolUsed msgs e,
      chatWithToolsGo jsonParse toolHandler replies maxIterations i fuel toolUsed msgs =
        Except.error e →
      (e = "Max tool iterations (" ++ toString maxIterations ++ ") exceeded" ∧
        ∀ j, i ≤ j → j < i + fuel → (replies j).tool_calls ≠ []) ∨
      (∃ j, i ≤ j ∧ j < i + fuel ∧ ∃ tc ∈ (replies j).tool_calls,
        parseToolArguments jsonParse tc.args = Except.error e) := by
  intro fuel
  induction fuel with
  | zero =>
    intro i toolUsed msgs e h
    simp only [chatWithToolsGo, Except.error.injEq] at h
    exact Or.inl ⟨h.symm, fun j hij hj => absurd hj (by omega)⟩
  | succ fuel ih =>
    intro i toolUsed msgs e h
    simp only [chatWithToolsGo] at h
    by_cases h0 : (replies i).tool_calls = []
    · rw [if_pos h0] at h; simp at h
    · rw [if_neg h0] at h
      cases hp : processToolCalls jsonParse toolHandler (replies i) (replies i).tool_calls with
      | error e0 =>
        rw [hp] at h
        simp only [Except.error.injEq] at h
        refine Or.inr ⟨i, le_refl i, by omega, ?_⟩
        rw [← h]
        exact processToolCalls_error_sound jsonParse toolHandler (replies i)
          (replies i).tool_calls e0 hp
      | ok turns =>
        rw [hp] at h
        simp only [] at h
        rcases ih (i + 1) true (msgs ++ turns) e h with ⟨hmsg, hall⟩ | ⟨j, hij, hjlt, htc⟩
        · refine Or.inl ⟨hmsg, ?_⟩
          intro j hij hj
          by_cases hji : i + 1 ≤ j
          · exact hall j hji (by omega)
          · have hj' : j = i := by omega
            rw [hj']; exact h0
        · exact Or.inr ⟨j, by omega, by omega, htc⟩

/-- A reply stream whose every reply carries one tool call with a
string-typed argument payload that is not valid JSON. -/
def c5BadReplies : Nat → ReplyM :=
  fun _ => ⟨"r", [⟨"get_gold_example", ToolArgsM.str "not json"⟩]⟩

/-- `JSON.parse` restricted to the texts of the counterexample: the
real builtin throws a `SyntaxError` on the non-JSON text `not json`
and this oracle records that behaviour. -/
def c5JsonParse : String → Except String String :=
  fun s =>
    if s = "not json" then
      Except.error "SyntaxError: Unexpected token o in JSON at position 1"
    else Except.ok s

/-- C5 counterexample: every reply of the stream carries a tool call,
so the claim predicts the fatal max-iterations error after 3
iterations with every call executed by the handler; instead the very
first call's string-typed arguments fail `JSON.parse` inside
`parseToolArguments` (line 603, outside the try/catch) and the
`SyntaxError` propagates out of the loop without the handler running
and without the loop continuing. -/
theorem c5_counterexample :
    chatWithTools [] c5JsonParse (fun _ _ => Except.ok "r") c5BadReplies =
      Except.error "SyntaxError: Unexpected token o in JSON at position 1" ∧
    "SyntaxError: Unexpected token o in JSON at position 1" ≠
      "Max tool iterations (3) exceeded" := by
  constructor
  · rfl
  · decide

/-- C5 (amended): `chatWithTools` runs at most 3 iterations; a
successful result is the first reply with no tool calls, every earlier
reply carried tool calls; a handler exception on a tool call whose
arguments reached it is converted into the JSON error envelope used as
the synthetic tool-result turn; but two kinds of error escape the
loop: the fatal max-iterations error, thrown exactly when the first
three replies all carry tool calls and all arguments parse, and an
uncaught `JSON.parse` `SyntaxError` from `parseToolArguments` on a
string-typed tool-call argument of one of the first three replies,
which propagates before that call's handler runs. -/
theorem c5_chat_with_tools_bounded (msgs0 : List MessageM)
    (jsonParse : String → Except String String)
    (toolHandler : String → String → Except String String) (replies : Nat → ReplyM) :
    (∀ res, chatWithTools msgs0 jsonParse toolHandler replies = Except.ok res →
      res.iterations ≤ 3 ∧ res.response = replies (res.iterations - 1) ∧
      (replies (res.iterations - 1)).tool_calls = [] ∧
      (∀ j, j + 1 < res.iterations → (replies j).tool_calls ≠ [])) ∧
    (∀ e, chatWithTools msgs0 jsonParse toolHandler replies = Except.error e →
      (e = "Max tool iterations (3) exceeded" ∧ ∀ j < 3, (replies j).tool_calls ≠ []) ∨
      (∃ j < 3, ∃ tc ∈ (replies j).tool_calls,
        parseToolArguments jsonParse tc.args = Except.error e)) ∧
    (∀ nm av m, toolHandler nm av = Except.error m →
      execToolCall toolHandler nm av = createErrorResponse (jsErrorToString m)) := by
  refine ⟨?_, ?_, ?_⟩
  · intro res h
    simp only [chatWithTools, DEFAULT_MAX_ITERATIONS] at h
    obtain ⟨h1, h2, h3, h4, h5⟩ :=
      chatWithToolsGo_ok_sound jsonParse toolHandler replies 3 3 0 false msgs0 res h
    exact ⟨by omega, h3, h4, fun j hj => h5 j (Nat.zero_le j) hj⟩
  · intro e h
    simp only [chatWithTools, DEFAULT_MAX_ITERATIONS] at h
    rcases chatWithToolsGo_error_sound jsonParse toolHandler replies 3 3 0 false msgs0 e h with
      ⟨hmsg, hall⟩ | ⟨j, hij, hjlt, htc⟩
    · refine Or.inl ⟨by rw [hmsg]; rfl, ?_⟩
      intro j hj
      exact hall j (Nat.zero_le j) (by omega)
    · exact Or.inr ⟨j, by omega, htc⟩
  · intro nm av m h
    simp [execToolCall, h]

/-- A reply stream that answers without tool calls immediately. -/
def c5Replies : Nat → ReplyM := fun _ => ⟨"done", []⟩

/-- A `JSON.parse` oracle that accepts every text. -/
def c5JsonOk : String → Except String String := fun s => Except.ok s

/-- Closed instance of C5: the no-tool-call stream terminates in one
iteration. -/
theorem c5_chat_with_tools_bounded_witness :
    ({ response := ⟨"done", []⟩, toolUsed := false, iterations := 1,
       messages := [] } : ChatResultM).iterations ≤ 3 :=
  ((c5_chat_with_tools_bounded [] c5JsonOk (fun _ _ => Except.ok "r") c5Replies).1
    { response := ⟨"done", []⟩, toolUsed := false, iterations := 1, messages := [] }
    rfl).1

/-- C10: an unregistered tool name makes `ToolRegistry.executeTool`
throw `Tool not found`; when the call's arguments are object-typed
(already a `Record`, so `parseToolArguments` returns them unchanged
and they reach the handler), that exception is thrown inside the
try/catch of `chatWithTools`, caught, serialized as the
`{"error": ...}` JSON envelope appended as the synthetic tool-result
turn, and the loop proceeds to the next iteration, returning the
following non-tool reply normally. -/
theorem c10_unregistered_tool_recovered
    (goldHandler : String → Except String String)
    (jsonParse : String → Except String String)
    (msgs0 : List MessageM) (replies : Nat → ReplyM) (n args : String)
    (hn : n ≠ "get_gold_example")
    (h0 : (replies 0).tool_calls = [⟨n, ToolArgsM.record args⟩])
    (h1 : (replies 1).tool_calls = []) :
    registryToolHandler goldHandler n args =
      Except.error ("Tool not found: " ++ n) ∧
    chatWithTools msgs0 jsonParse (registryToolHandler goldHandler) replies =
      Except.ok
        { response := replies 1
          toolUsed := true
          iterations := 2
          messages := msgs0 ++
            [⟨"assistant", (replies 0).content, (replies 0).tool_calls⟩,
             ⟨"tool", createErrorResponse (jsErrorToString ("Tool not found: " ++ n)),
               []⟩] } := by
  have hreg : registryToolHandler goldHandler n args =
      Except.error ("Tool not found: " ++ n) := by
    simp [registryToolHandler, hn]
  refine ⟨hreg, ?_⟩
  simp [chatWithTools, chatWithToolsGo, DEFAULT_MAX_ITERATIONS, h0, h1,
    processToolCalls, parseToolArguments, execToolCall, hreg]

/-- Reply stream for the closed C10 instance: one unregistered call
with object-typed arguments, then a plain reply. -/
def c10Replies : Nat → ReplyM :=
  fun i => if i = 0 then ⟨"r0", [⟨"nope", ToolArgsM.record "a"⟩]⟩ else ⟨"done", []⟩

/-- Gold-example handler for the closed C10 instance. -/
def c10Gold : String → Except String String := fun _ => Except.ok "g"

/-- `JSON.parse` oracle for the closed C10 instance (never consulted:
the arguments are object-typed). -/
def c10Json : String → Except String String := fun s => Except.ok s

/-- Closed instance of C10 at a concrete unregistered tool call. -/
theorem c10_unregistered_tool_recovered_witness :
    registryToolHandler c10Gold "nope" "a" =
      Except.error ("Tool not found: " ++ "nope") ∧
    chatWithTools [] c10Json (registryToolHandler c10Gold) c10Replies =
      Except.ok
        { response := c10Replies 1
          toolUsed := true
          iterations := 2
          messages := [] ++
            [⟨"assistant", (c10Replies 0).content, (c10Replies 0).tool_calls⟩,
             ⟨"tool", createErrorResponse (jsErrorToString ("Tool not found: " ++ "nope")),
               []⟩] } :=
  c10_unregistered_tool_recovered c10Gold c10Json [] c10Replies "nope" "a"
    (by decide) rfl rfl

/-! ## ExtractionService.findFieldLocation -/

/-- An OCR bounding box `[x, y, w, h]`. -/
structure BBoxM where
  x : ℚ
  y : ℚ
  w : ℚ
  h : ℚ
deriving Repr, DecidableEq

/-- One OCR word (its confidence is never read by the search). -/
structure OcrWordM where
  text : String
  bbox : BBoxM
deriving Repr, DecidableEq

/-- One OCR page. -/
structure OcrPageM where
  page : Nat
  text : String
  words : List OcrWordM
deriving Repr, DecidableEq

/-- The `{pageNumber, bbox}` location result. -/
structure LocM where
  pageNumber : Option Nat
  bbox : Option BBoxM
deriving Repr, DecidableEq

/-- The all-null location. -/
def nullLoc : LocM := ⟨none, none⟩

/-- Character kept by the `/[^a-z0-9\s]/g` strip (after lower-casing). -/
def isKeptChar (c : Char) : Bool :=
  (97 ≤ c.toNat && c.toNat ≤ 122) || (48 ≤ c.toNat && c.toNat ≤ 57) || isJsSpaceB c

/-- The normalization of the search: lower-case, then remove everything
but lower-case letters, digits and whitespace. -/
def normChars (l : List Char) : List Char := (l.map toLowerChar).filter isKeptChar

/-- Fractional decimal digits of a rational in `[0, 1)`, up to `fuel`
digits (exact for terminating decimals). -/
def fracDigitsGo : Nat → ℚ → List Char
  | 0, _ => []
  | fuel + 1, q =>
    if q = 0 then []
    else
      let d := Int.floor (q * 10)
      Char.ofNat (48 + d.toNat) :: fracDigitsGo fuel (q * 10 - d)

/-- Decimal rendering of a JavaScript number, idealized over exact
rationals: integers print their digits; other values print up to 20
fractional digits of the decimal expansion (exact for the terminating
decimals produced by the coercion paths). -/
def jsNumToString (q : ℚ) : String :=
  let sign := if q < 0 then "-" else ""
  let a := |q|
  let ip := Int.floor a
  let fp := a - ip
  if fp = 0 then sign ++ toString ip.toNat
  else sign ++ toString ip.toNat ++ "." ++ String.mk (fracDigitsGo 20 fp)

/-- JavaScript `Array.prototype.join(",")` of rendered elements. -/
def joinComma : List String → String
  | [] => ""
  | [s] => s
  | s :: t => s ++ "," ++ joinComma t

mutual

/-- JavaScript `String(value)` (objects other than arrays do not reach
this conversion in `findFieldLocation`). -/
def jsToString : JsValue → String
  | JsValue.null => "null"
  | JsValue.bool b => if b then "true" else "false"
  | JsValue.num q => jsNumToString q
  | JsValue.str s => s
  | JsValue.arr l => joinComma (jsToStringArr l)

/-- Array elements under `join`: `null` renders as the empty string. -/
def jsToStringArr : List JsValue → List String
  | [] => []
  | JsValue.null :: t => "" :: jsToStringArr t
  | v :: t => jsToString v :: jsToStringArr t

end

/-- The `searchText` computed by `findFieldLocation` from the field
value: trimmed strings, stringified numbers and booleans, the first
element of a non-empty array; `none` when the function returns the
null location up front (null value or empty array). -/
def searchTextOf : JsValue → Option String
  | JsValue.str s => some (String.mk (jsTrimL s.data))
  | JsValue.num q => some (jsNumToString q)
  | JsValue.bool b => some (if b then "true" else "false")
  | JsValue.arr [] => none
  | JsValue.arr (v :: _) => some (jsToString v)
  | JsValue.null => none

/-- JavaScript `searchText.split(/\s+/)`: split on maximal whitespace
runs, keeping an empty leading/trailing segment when the string starts
or ends with whitespace. -/
def splitWsGo : List Char → List Char → List (List Char)
  | [], acc => [acc.reverse]
  | c :: t, acc =>
    if isJsSpaceB c then
      acc.reverse :: splitWsGo (t.dropWhile isJsSpaceB) []
    else splitWsGo t (c :: acc)
termination_by l _ => l.length
decreasing_by
  · simp only [List.length_cons]
    exact Nat.lt_succ_of_le (List.dropWhile_sublist isJsSpaceB).length_le
  · simp [List.length_cons]

/-- `split(/\s+/)` entry point. -/
def splitWs (l : List Char) : List (List Char) := splitWsGo l []

/-- Accumulated state of the multi-word span search: the raw combined
text and the bounding-box envelope so far. -/
structure SpanAcc where
  raw : List Char
  minX : ℚ
  minY : ℚ
  maxX : ℚ
  maxY : ℚ

/-- Span state for the starting word `i`. -/
def startAcc (w : OcrWordM) : SpanAcc :=
  ⟨w.text.data, w.bbox.x, w.bbox.y, w.bbox.x + w.bbox.w, w.bbox.y + w.bbox.h⟩

/-- Extend the span by the next word (space-joined text, box union). -/
def accAdd (a : SpanAcc) (w : OcrWordM) : SpanAcc :=
  ⟨a.raw ++ ' ' :: w.text.data,
   min a.minX w.bbox.x, min a.minY w.bbox.y,
   max a.maxX (w.bbox.x + w.bbox.w), max a.maxY (w.bbox.y + w.bbox.h)⟩

/-- The `[minX, minY, maxX - minX, maxY - minY]` union box. -/
def accBBox (a : SpanAcc) : BBoxM := ⟨a.minX, a.minY, a.maxX - a.minX, a.maxY - a.minY⟩

/-- The `replace(/\s/g, '')` compaction. -/
def stripWsChars (l : List Char) : List Char := l.filter (fun c => !isJsSpaceB c)

/-- The containment length floor: 8 for long phrases (raw length over
15), 4 otherwise. -/
def containMinLen (stLen : Nat) : Nat := if stLen > 15 then 8 else 4

/-- The three span acceptance tests of one lookahead step, in source
order: normalized equality, space-compacted equality, containment with
the length floor. -/
def spanCond (ns : List Char) (stLen : Nat) (raw : List Char) : Bool :=
  let nc := normChars raw
  nc == ns || stripWsChars nc == stripWsChars ns ||
    (isSubstrOf ns nc && decide (ns.length > containMinLen stLen))

/-- The inner lookahead loop over the at most `maxLookahead - 1` words
following the starting word. -/
def spanGo (ns : List Char) (stLen : Nat) : List OcrWordM → SpanAcc → Option BBoxM
  | [], _ => none
  | w :: rest, a =>
    let a2 := accAdd a w
    if spanCond ns stLen a2.raw then some (accBBox a2)
    else spanGo ns stLen rest a2

/-- The per-word loop over a page: exact single-word match first, then
the bounded span search, then the next starting word. -/
def searchFromWords (ns : List Char) (stLen maxLA : Nat) : List OcrWordM → Option BBoxM
  | [] => none
  | w :: rest =>
    if normChars w.text.data == ns then some w.bbox
    else
      match spanGo ns stLen (rest.take (maxLA - 1)) (startAcc w) with
      | some bb => some bb
      | none => searchFromWords ns stLen maxLA rest

/-- The page-wide substring fallback. -/
def fallbackSearch (ns : List Char) : List OcrWordM → Option BBoxM
  | [] => none
  | w :: rest =>
    if isSubstrOf ns (normChars w.text.data) then some w.bbox
    else fallbackSearch ns rest

/-- One page of the search; pages without words are skipped entirely,
and the fallback only runs for normalized lengths over 6. -/
def searchPage (ns : List Char) (stLen maxLA : Nat) (p : OcrPageM) : Option BBoxM :=
  if p.words.isEmpty then none
  else
    match searchFromWords ns stLen maxLA p.words with
    | some bb => some bb
    | none => if ns.length > 6 then fallbackSearch ns p.words else none

/-- The page loop: first page with a hit wins. -/
def searchPages (ns : List Char) (stLen maxLA : Nat) : List OcrPageM → LocM
  | [] => nullLoc
  | p :: rest =>
    match searchPage ns stLen maxLA p with
    | some bb => ⟨some p.page, some bb⟩
    | none => searchPages ns stLen maxLA rest

/-- `ExtractionService.findFieldLocation`; `none` for the value models
a JavaScript `undefined`.  Note that the under-2-characters guard runs
on the RAW search text, before normalization. -/
def findFieldLocation (value : Option JsValue) (ocrPages : List OcrPageM) : LocM :=
  match ocrPages, value with
  | [], _ => nullLoc
  | _, none => nullLoc
  | _ :: _, some v =>
    match searchTextOf v with
    | none => nullLoc
    | some st =>
      if st.length < 2 then nullLoc
      else
        searchPages (normChars st.data) st.length
          (min (max ((splitWs st.data).length + 3) 10) 20) ocrPages

/-- The raw text a span of consecutive words joins to, as a suffix
list: one leading space before each word. -/
def glueTexts (ws : List OcrWordM) : List Char :=
  (ws.map (fun w => ' ' :: w.text.data)).flatten

/-- Raw space-joined text of the `len` words starting at index `i`. -/
def segRaw (ws : List OcrWordM) (i len : Nat) : List Char :=
  match (ws.drop i).take len with
  | [] => []
  | w :: t => w.text.data ++ glueTexts t

/-- A page carries a match for the search: an exact single-word match,
a lookahead-bounded span accepted by one of the three span tests, or
the page-wide substring fallback (only for normalized length over 6). -/
def pageMatchExists (ns : List Char) (stLen maxLA : Nat) (p : OcrPageM) : Prop :=
  (∃ w ∈ p.words, normChars w.text.data = ns) ∨
  (∃ i len, 2 ≤ len ∧ len ≤ maxLA ∧ i + len ≤ p.words.length ∧
    spanCond ns stLen (segRaw p.words i len) = true) ∨
  (6 < ns.length ∧ ∃ w ∈ p.words, isSubstrOf ns (normChars w.text.data) = true)

theorem spanGo_sound (ns : List Char) (stLen : Nat) :
    ∀ (cands : List OcrWordM) (a : SpanAcc) (bb : BBoxM),
      spanGo ns stLen cands a = some bb →
      ∃ m, m < cands.length ∧
        spanCond ns stLen (a.raw ++ glueTexts (cands.take (m + 1))) = true := by
  intro cands
  induction cands with
  | nil => intro a bb h; simp [spanGo] at h
  | cons w rest ih =>
    intro a bb h
    simp only [spanGo] at h
    split_ifs at h with hc
    · exact ⟨0, by simp, by simpa [glueTexts, accAdd] using hc⟩
    · obtain ⟨m, hm, hcond⟩ := ih (accAdd a w) bb h
      refine ⟨m + 1, by simpa using Nat.succ_lt_succ hm, ?_⟩
      simpa [glueTexts, accAdd, List.append_assoc] using hcond

theorem searchFromWords_sound (ns : List Char) (stLen maxLA : Nat) :
    ∀ (ws : List OcrWordM) (bb : BBoxM),
      searchFromWords ns stLen maxLA ws = some bb →
      (∃ w ∈ ws, normChars w.text.data = ns) ∨
      (∃ i len, 2 ≤ len ∧ len ≤ maxLA ∧ i + len ≤ ws.length ∧
        spanCond ns stLen (segRaw ws i len) = true) := by
  intro ws
  induction ws with
  | nil => intro bb h; simp [searchFromWords] at h
  | cons w rest ih =>
    intro bb h
    simp only [searchFromWords] at h
    split_ifs at h with hex
    · exact Or.inl ⟨w, by simp, by simpa using hex⟩
    · cases hsp : spanGo ns stLen (rest.take (maxLA - 1)) (startAcc w) with
      | some bb2 =>
        obtain ⟨m, hm, hcond⟩ := spanGo_sound ns stLen _ _ _ hsp
        rw [List.length_take] at hm
        right
        have htt : (rest.take (maxLA - 1)).take (m + 1) = rest.take (m + 1) := by
          rw [List.take_take]
          congr 1
          omega
        rw [htt] at hcond
        refine ⟨0, m + 2, by omega, by omega, by simp; omega, ?_⟩
        simpa [segRaw, startAcc, glueTexts] using hcond
      | none =>
        rw [hsp] at h
        simp only at h
        rcases ih bb h with ⟨w2, hw2, heq⟩ | ⟨i, len, h2, h3, h4, h5⟩
        · exact Or.inl ⟨w2, by simp [hw2], heq⟩
        · refine Or.inr ⟨i + 1, len, h2, h3, by simp; omega, ?_⟩
          simpa [segRaw, List.drop_succ_cons] using h5

theorem fallbackSearch_sound (ns : List Char) :
    ∀ (ws : List OcrWordM) (bb : BBoxM), fallbackSearch ns ws = some bb →
      ∃ w ∈ ws, isSubstrOf ns (normChars w.text.data) = true := by
  intro ws
  induction ws with
  | nil => intro bb h; simp [fallbackSearch] at h
  | cons w rest ih =>
    intro bb h
    simp only [fallbackSearch] at h
    split_ifs at h with hc
    · exact ⟨w, by simp, hc⟩
    · obtain ⟨w2, hw2, heq⟩ := ih bb h
      exact ⟨w2, by simp [hw2], heq⟩

theorem searchPage_sound (ns : List Char) (stLen maxLA : Nat) (p : OcrPageM)
    (bb : BBoxM) (h : searchPage ns stLen maxLA p = some bb) :
    pageMatchExists ns stLen maxLA p := by
  by_cases hempty : p.words.isEmpty = true
  · rw [searchPage, if_pos hempty] at h
    exact absurd h (by simp)
  · cases hsf : searchFromWords ns stLen maxLA p.words with
    | some bb2 =>
      rcases searchFromWords_sound ns stLen maxLA p.words bb2 hsf with h1 | h2
      · exact Or.inl h1
      · exact Or.inr (Or.inl h2)
    | none =>
      simp only [searchPage, if_neg hempty, hsf] at h
      split_ifs at h with hlen
      exact Or.inr (Or.inr ⟨hlen, fallbackSearch_sound ns p.words bb h⟩)

theorem searchPages_eq_null (ns : List Char) (stLen maxLA : Nat) :
    ∀ pages : List OcrPageM,
      (∀ p ∈ pages, searchPage ns stLen maxLA p = none) →
      searchPages ns stLen maxLA pages = nullLoc := by
  intro pages
  induction pages with
  | nil => intro _; rfl
  | cons p rest ih =>
    intro h
    simp only [searchPages, h p (by simp)]
    exact ih (fun q hq => h q (by simp [hq]))

/-- A one-word page whose word `"$"` normalizes to the empty string. -/
def c9Page : OcrPageM := ⟨1, "", [⟨"$", ⟨1, 2, 3, 4⟩⟩]⟩

/-- C9 counterexample: the value `"!!"` normalizes to the empty string
(fewer than 2 characters), yet it IS searched — the under-2 guard runs
on the raw text, whose length is 2 — and it exactly matches the word
`"$"` (which also normalizes to empty), returning that word's location
instead of the null location. -/
theorem c9_counterexample :
    findFieldLocation (some (JsValue.str "!!")) [c9Page] =
      ⟨some 1, some ⟨1, 2, 3, 4⟩⟩ ∧
    (normChars "!!".data).length < 2 := by
  constructor
  · simp +decide [findFieldLocation, c9Page, searchTextOf, jsTrimL, splitWs, splitWsGo,
      normChars, isKeptChar, toLowerChar, isJsSpaceB, searchPages, searchPage,
      searchFromWords, spanGo, startAcc, nullLoc]
  · decide

/-- C9 (amended): `findFieldLocation` is a total function of the value
and pages (it never throws): array values are searched using only their
first element; null and undefined values, empty arrays, and raw search
texts shorter than 2 characters are never searched (the guard uses the
RAW trimmed text, so a longer value can still normalize below 2
characters and be searched); and whenever no page carries an exact
single-word, bounded multi-word-span, or substring match for the
normalized search text, the result is the null page number and null
bounding box. -/
theorem c9_find_field_location_safe :
    (∀ (v : JsValue) (r1 r2 : List JsValue) (pages : List OcrPageM),
      findFieldLocation (some (JsValue.arr (v :: r1))) pages =
        findFieldLocation (some (JsValue.arr (v :: r2))) pages) ∧
    (∀ pages : List OcrPageM, findFieldLocation none pages = nullLoc ∧
      findFieldLocation (some JsValue.null) pages = nullLoc ∧
      findFieldLocation (some (JsValue.arr [])) pages = nullLoc) ∧
    (∀ (v : JsValue) (pages : List OcrPageM) (st : String),
      searchTextOf v = some st → st.length < 2 →
      findFieldLocation (some v) pages = nullLoc) ∧
    (∀ (v : JsValue) (pages : List OcrPageM) (st : String),
      searchTextOf v = some st →
      (∀ p ∈ pages, ¬ pageMatchExists (normChars st.data) st.length
        (min (max ((splitWs st.data).length + 3) 10) 20) p) →
      findFieldLocation (some v) pages = nullLoc) := by
  refine ⟨?_, ?_, ?_, ?_⟩
  · intro v r1 r2 pages
    cases pages with
    | nil => rfl
    | cons p ps => rfl
  · intro pages
    refine ⟨?_, ?_, ?_⟩ <;> cases pages <;> rfl
  · intro v pages st hst hlen
    cases pages with
    | nil => rfl
    | cons p ps => simp [findFieldLocation, hst, hlen]
  · intro v pages st hst hnm
    cases pages with
    | nil => rfl
    | cons p ps =>
      by_cases hlen : st.length < 2
      · simp [findFieldLocation, hst, hlen]
      · simp only [findFieldLocation, hst, if_neg hlen]
        apply searchPages_eq_null
        intro q hq
        cases hs : searchPage (normChars st.data) st.length
            (min (max ((splitWs st.data).length + 3) 10) 20) q with
        | none => rfl
        | some bb =>
          exact absurd (searchPage_sound _ _ _ q bb hs) (hnm q hq)

/-- Closed instance of C9: a one-character value is never searched. -/
theorem c9_find_field_location_safe_witness :
    findFieldLocation (some (JsValue.str "a")) [c9Page] = nullLoc :=
  c9_find_field_location_safe.2.2.1 (JsValue.str "a") [c9Page] "a" rfl (by decide)

/-! ## ExtractionService.extract -/

/-- `ValidationService.validateField` result (passed flag, optional
error message, refined confidence). -/
structure ValidationResultM where
  passed : Bool
  error : Option String
  confidence : ℚ
deriving Repr, DecidableEq

/-- `ValidationService.getValidationStatus`: `failed` only for a
failed schema check, otherwise `passed` (the declared `skipped` state
is never produced). -/
def getValidationStatus (r : ValidationResultM) : String :=
  if r.passed = true ∧ r.confidence ≥ 0.9 then "passed"
  else if r.passed = false then "failed"
  else "passed"

/-- One extracted `Field` record. -/
structure FieldM where
  name : String
  value : JsValue
  llm_confidence : ℚ
  validation_confidence : ℚ
  clarity_confidence : ℚ
  final_confidence : ℚ
  page_number : Option Nat
  bbox : Option BBoxM
  validation_status : String
  validation_error : Option String
  reasons : List String
deriving Repr

/-- The `ExtractionResult` record (the timestamp is not modelled). -/
structure ExtractionResultM where
  document_id : Nat
  fields : List FieldM
  overall_confidence : ℚ
  schema_type : String
  reasons : List String
deriving Repr

/-- `extractedData[fieldName]` on the parsed (and key-preservingly
coerced) LLM output, modelled as an association list; `none` is the
JavaScript `undefined` for an absent key. -/
def lookupField (data : List (String × JsValue)) (name : String) : Option JsValue :=
  (data.find? (fun kv => kv.1 == name)).map Prod.snd

/-- The extraction-path `calculateLLMConfidence`: value-shape heuristic
(null/undefined 0; strings by trimmed length; numbers 0.9; booleans
0.95; arrays 0.2/0.8; the object default 0.7 is unreachable for the
modelled value shapes). -/
def extractLLMConfidence : Option JsValue → ℚ
  | none => 0
  | some JsValue.null => 0
  | some (JsValue.str s) =>
    if (jsTrimL s.data).length = 0 then 0.1
    else if (jsTrimL s.data).length < 2 then 0.3
    else if (jsTrimL s.data).length < 5 then 0.6
    else 0.85
  | some (JsValue.num _) => 0.9
  | some (JsValue.bool _) => 0.95
  | some (JsValue.arr l) => if l.isEmpty then 0.2 else 0.8

/-- The extraction-path `calculateClarityConfidence`: keyword
match-rate buckets with a 0.5 default when no keywords exist. -/
def extractClarityConfidence (text : String) (keywords : List String) : ℚ :=
  if keywords.length = 0 then 0.5
  else
    let lowerText := jsToLower text
    let matchCount := keywords.countP (fun kw => jsIncludes lowerText (jsToLower kw))
    let matchRate : ℚ := (matchCount : ℚ) / (keywords.length : ℚ)
    if matchRate = 0 then 0.3
    else if matchRate < 0.3 then 0.5
    else if matchRate < 0.6 then 0.7
    else 0.95

/-- The per-field body of the extraction loop (lines 357–402 of the
source): look the field up in the coerced output, compute the three
sub-scores (validation through the injected `validateF`, standing for
`validationService.validateField documentType`), their product, the
low-confidence reasons against the threshold, and the best-effort OCR
location. -/
def buildField (validateF : String → Option JsValue → ValidationResultM)
    (keywordsOf : String → List String) (ocrText : String) (threshold : ℚ)
    (ocrPages : List OcrPageM) (data : List (String × JsValue))
    (fieldName : String) : FieldM :=
  let value := lookupField data fieldName
  let llm := extractLLMConfidence value
  let vres := validateF fieldName value
  let clar := extractClarityConfidence ocrText (keywordsOf fieldName)
  let fin := llm * vres.confidence * clar
  let reasons := generateLowConfidenceReasons ⟨llm, vres.confidence, clar, fin⟩ threshold
  let loc := findFieldLocation value ocrPages
  { name := fieldName
    value := value.getD JsValue.null
    llm_confidence := llm
    validation_confidence := vres.confidence
    clarity_confidence := clar
    final_confidence := fin
    page_number := loc.pageNumber
    bbox := loc.bbox
    validation_status := getValidationStatus vres
    validation_error := vres.error
    reasons := reasons }

/-- `ExtractionService.extract` after the LLM call, JSON parse and
key-preserving coercion (all passed in as `data`): iterate the schema's
field names in order, accumulate the fields and the confidence total,
and return the result with the arithmetic-mean overall confidence and
the document-level reasons over the sub-score means. -/
def extractCore (documentId : Nat) (documentType : String)
    (fieldNames : List String)
    (validateF : String → Option JsValue → ValidationResultM)
    (keywordsOf : String → List String) (ocrText : String) (threshold : ℚ)
    (ocrPages : List OcrPageM) (data : List (String × JsValue)) : ExtractionResultM :=
  let fields := fieldNames.map
    (buildField validateF keywordsOf ocrText threshold ocrPages data)
  let totalConfidence := (fields.map FieldM.final_confidence).sum
  let overall := totalConfidence / (fieldNames.length : ℚ)
  let overallBreakdown : ConfidenceBreakdown :=
    { llm_confidence := (fields.map FieldM.llm_confidence).sum / (fields.length : ℚ)
      validation_confidence :=
        (fields.map FieldM.validation_confidence).sum / (fields.length : ℚ)
      clarity_confidence := (fields.map FieldM.clarity_confidence).sum / (fields.length : ℚ)
      final_confidence := overall }
  { document_id := documentId
    fields := fields
    overall_confidence := overall
    schema_type := documentType
    reasons := generateLowConfidenceReasons overallBreakdown threshold }

/-- Placeholder record for total list indexing in statements. -/
def dummyField : FieldM :=
  { name := "", value := JsValue.null, llm_confidence := 0,
    validation_confidence := 0, clarity_confidence := 0, final_confidence := 0,
    page_number := none, bbox := none, validation_status := "failed",
    validation_error := none, reasons := [] }

/-- C8: every extraction result contains exactly one field per schema
field name, in schema order; a field name absent from the parsed LLM
output yields value `null` with `llm_confidence` 0; and the overall
confidence is the arithmetic mean (sum over field count) of the
per-field final confidences. -/
theorem c8_extraction_result_shape (documentId : Nat) (documentType : String)
    (fieldNames : List String)
    (validateF : String → Option JsValue → ValidationResultM)
    (keywordsOf : String → List String) (ocrText : String) (threshold : ℚ)
    (ocrPages : List OcrPageM) (data : List (String × JsValue)) :
    (extractCore documentId documentType fieldNames validateF keywordsOf ocrText
        threshold ocrPages data).fields.length = fieldNames.length ∧
    (extractCore documentId documentType fieldNames validateF keywordsOf ocrText
        threshold ocrPages data).fields.map FieldM.name = fieldNames ∧
    (∀ i, i < fieldNames.length →
      lookupField data (fieldNames.getD i "") = none →
      (((extractCore documentId documentType fieldNames validateF keywordsOf ocrText
          threshold ocrPages data).fields.getD i dummyField).value = JsValue.null ∧
       ((extractCore documentId documentType fieldNames validateF keywordsOf ocrText
          threshold ocrPages data).fields.getD i dummyField).llm_confidence = 0)) ∧
    (extractCore documentId documentType fieldNames validateF keywordsOf ocrText
        threshold ocrPages data).overall_confidence =
      ((extractCore documentId documentType fieldNames validateF keywordsOf ocrText
          threshold ocrPages data).fields.map FieldM.final_confidence).sum /
        (fieldNames.length : ℚ) := by
  refine ⟨by simp [extractCore], ?_, ?_, rfl⟩
  · simp only [extractCore, List.map_map]
    have hcomp : (FieldM.name ∘
        buildField validateF keywordsOf ocrText threshold ocrPages data) = id :=
      funext fun _ => rfl
    rw [hcomp, List.map_id]
  · intro i hi hnone
    have hg : (fieldNames.map
        (buildField validateF keywordsOf ocrText threshold ocrPages data)).getD i
          dummyField =
        buildField validateF keywordsOf ocrText threshold ocrPages data
          (fieldNames.getD i "") := by
      rw [List.getD_eq_getElem?_getD, List.getElem?_map,
        List.getElem?_eq_getElem hi]
      simp [List.getD_eq_getElem?_getD, List.getElem?_eq_getElem hi]
    simp only [extractCore]
    rw [hg]
    rw [List.getD_eq_getElem?_getD] at hnone
    simp [buildField, hnone, extractLLMConfidence]

def c8Data : List (String × JsValue) := [("a", JsValue.str "hello")]

def c8Validate : String → Option JsValue → ValidationResultM := fun _ _ => ⟨true, none, 0.8⟩

def c8Keywords : String → List String := fun _ => []

/-- Closed instance of C8: the missing `"b"` field becomes null with
zero LLM confidence. -/
theorem c8_extraction_result_shape_witness :
    (((extractCore 1 "Bank Statement" ["a", "b"] c8Validate c8Keywords "" 0.7 []
        c8Data).fields.getD 1 dummyField).value = JsValue.null ∧
     ((extractCore 1 "Bank Statement" ["a", "b"] c8Validate c8Keywords "" 0.7 []
        c8Data).fields.getD 1 dummyField).llm_confidence = 0) :=
  (c8_extraction_result_shape 1 "Bank Statement" ["a", "b"] c8Validate c8Keywords
    "" 0.7 [] c8Data).2.2.1 1 (by norm_num) rfl
